import Mathlib

/-!
Verification of the OXsync synchronization engine against its design
specification.  The development shallowly embeds the event-handling core of
the repository (`src/event_handler.rs`, `src/file_operations.rs`,
`src/file_store.rs`, `src/utils.rs`): paths become component lists, the LRU
mirror store becomes an explicit recency list, the filesystem becomes an
oracle of query results, and every handler becomes a pure function that
returns the updated store together with the list of attempted filesystem
mutations and emitted log lines.
-/

namespace OXsync

/-- Paths are modelled as their list of components.  The embedding works with
paths already in canonical verbatim component form, so
`Utils::path_to_verbatim` — which only rewrites the Windows drive prefix
(`C:\` to `\\?\C:\`) and leaves the components untouched — is the identity on
this abstraction. -/
abbrev SyncPath := List String

/-- `Utils::path_to_verbatim` (src/utils.rs:239-262).  On the component
abstraction the prefix rewrite is invisible, so this is the identity; it is
kept as a named function so the call sites mirror the source. -/
def pathToVerbatim (p : SyncPath) : SyncPath := p

/-- Content fingerprints.  `blake3::hash` is modelled as an injective
abstraction of the cryptographic hash: file contents are byte lists and the
fingerprint of a content is the content itself.  The code only ever compares
fingerprints for equality, which under this abstraction coincides with
content equality (the spec's intended reading of "fingerprint"). -/
abbrev Blake3Hash := List Nat

/-- The modelled `blake3::hash`. -/
def blake3Hash (content : List Nat) : Blake3Hash := content

/-- `PathType` (src/utils.rs:34-38). -/
inductive PathType where
  | File
  | Dir
deriving DecidableEq

/-- `PathMetadata` (src/utils.rs:40-45).  `last_change : SystemTime` is
modelled as milliseconds since an arbitrary epoch. -/
structure PathMetadata where
  path_type : PathType
  hash : Option Blake3Hash
  last_change : Nat
deriving DecidableEq

/-- `lru::LruCache<PathBuf, PathMetadata>` modelled with an explicit recency
list: the head of `entries` is the most-recently-used entry and the last
element is the least-recently-used (next eviction candidate).  Keys are
unique whenever the cache is built by the operations below. -/
structure LruCache where
  cap : Nat
  entries : List (SyncPath × PathMetadata)
deriving DecidableEq

namespace LruCache

/-- Remove every entry bound to key `k`. -/
def eraseKey (l : List (SyncPath × PathMetadata)) (k : SyncPath) :
    List (SyncPath × PathMetadata) :=
  l.filter (fun e => decide (e.1 ≠ k))

/-- `LruCache::peek`: look the key up without updating the recency order. -/
def peek (c : LruCache) (k : SyncPath) : Option PathMetadata :=
  (c.entries.find? (fun e => decide (e.1 = k))).map (fun e => e.2)

/-- `LruCache::put`: insert or update the binding at MRU position, evicting
the LRU entry when a new key would exceed the capacity. -/
def put (c : LruCache) (k : SyncPath) (v : PathMetadata) : LruCache :=
  { c with entries := ((k, v) :: eraseKey c.entries k).take c.cap }

/-- `LruCache::get`: a successful lookup promotes the entry to MRU position
("LRU touch"); a miss leaves the cache unchanged. -/
def get (c : LruCache) (k : SyncPath) : Option PathMetadata × LruCache :=
  match peek c k with
  | none => (none, c)
  | some v => (some v, { c with entries := (k, v) :: eraseKey c.entries k })

/-- `LruCache::pop`: remove the binding, returning it. -/
def pop (c : LruCache) (k : SyncPath) : Option PathMetadata × LruCache :=
  (peek c k, { c with entries := eraseKey c.entries k })

end LruCache

/-- `FileStore` (src/file_store.rs:9-12), minus the `Arc<RwLock<...>>`
wrapper, which only guards concurrent access and does not change the
sequential semantics modelled here. -/
structure FileStore where
  content : LruCache
deriving DecidableEq

namespace FileStore

/-- `FileStore::new` (src/file_store.rs:15-24): an LRU cache with capacity
32,768 (the hasher choice is irrelevant to the model). -/
def new : FileStore := ⟨⟨32768, []⟩⟩

/-- `FileStore::create` (src/file_store.rs:26-29). -/
def create (s : FileStore) (k : SyncPath) (v : PathMetadata) : FileStore :=
  ⟨s.content.put k v⟩

/-- `FileStore::read` (src/file_store.rs:32-35): `content.peek(key).cloned()`.
Note this deliberately mirrors the source's use of `peek`, which does not
update the recency order; the function is non-mutating. -/
def read (s : FileStore) (k : SyncPath) : Option PathMetadata :=
  s.content.peek k

/-- `FileStore::update` (src/file_store.rs:38-41). -/
def update (s : FileStore) (k : SyncPath) (v : PathMetadata) : FileStore :=
  ⟨s.content.put k v⟩

/-- `FileStore::delete` (src/file_store.rs:44-47). -/
def delete (s : FileStore) (k : SyncPath) : FileStore :=
  ⟨(s.content.pop k).2⟩

end FileStore

/-- The fields of the parsed CLI `Args` consulted by the handlers
(src/start.rs parses more fields — `exclude`, `ide_mode`, `statistics`,
`trace` — but only through startup code; the handlers read exactly these
four). -/
structure Args where
  source_dir : SyncPath
  target_dir : SyncPath
  no_temporary_editor_files : Bool
  no_creation_events : Bool
deriving DecidableEq

/-- An I/O error as far as the handlers inspect it: `raw_os_error()`. -/
structure IoError where
  rawOsError : Option Nat
deriving DecidableEq

/-- The filesystem as observed by one handler execution: an oracle answering
each query (`is_file`, `is_dir`, `exists`, `fs::read`) and giving the outcome
of each attempted mutation.  The handlers never re-check a mutation's effect,
so a static oracle captures a single execution faithfully. -/
structure FsView where
  isFile : SyncPath → Bool
  isDir : SyncPath → Bool
  pathExists : SyncPath → Bool
  readFile : SyncPath → Option (List Nat)
  copyFileOk : SyncPath → SyncPath → Bool
  createDirAllOk : SyncPath → Bool
  createFileErr : SyncPath → Option IoError
  removeFileErr : SyncPath → Option IoError
  removeDirAllErr : SyncPath → Option IoError
  renameFsOk : SyncPath → SyncPath → Bool

/-- The ambient state the handlers read: parsed arguments, the startup-time
excluded-path set (`EXCLUDED_PATHS` in src/utils.rs, populated by
`Start::parse_args`, src/start.rs:57-76), and the filesystem oracle. -/
structure Env where
  args : Args
  excludedPaths : List SyncPath
  fs : FsView

/-- `notify::event::RenameMode`, collapsed to the cases the code
distinguishes: `From`, `To`, and everything else (`Both`/`Any`/`Other`). -/
inductive RenameMode where
  | fromSide
  | toSide
  | otherMode
deriving DecidableEq

/-- `notify::event::ModifyKind`, collapsed to the cases the code
distinguishes: `Name(rename_mode)` versus any other modification. -/
inductive ModifyKind where
  | name (rm : RenameMode)
  | nonName
deriving DecidableEq

/-- `notify::EventKind`, collapsed to the cases the dispatcher distinguishes
(src/event_handler.rs:26-55). -/
inductive EventKind where
  | createEv
  | modifyEv (mk : ModifyKind)
  | removeEv
  | accessEv
  | otherEv
deriving DecidableEq

/-- `notify::Event`: a kind plus the affected paths. -/
structure Event where
  kind : EventKind
  paths : List SyncPath
deriving DecidableEq

/-- A filesystem mutation attempted by a handler, in program order. -/
inductive FsOp where
  | copyFile (src dest : SyncPath)
  | createDirAll (p : SyncPath)
  | createFile (p : SyncPath)
  | removeFile (p : SyncPath)
  | removeDirAll (p : SyncPath)
  | renameFs (old new : SyncPath)
deriving DecidableEq

/-- A log line emitted by a handler.  Lines are identified by constructor
rather than by their printf text; `actionDone` models `Utils::print_action`,
which is called by the handlers but whose body is not part of this snapshot
(modelled from the spec: one log line per successful operation). -/
inductive LogLine where
  | identicalNotCopied (pathStr : SyncPath)
  | fileCopied (pathStr : SyncPath)
  | copyFailed (pathStr : SyncPath)
  | dirCreated (pathStr : SyncPath)
  | createDirsFailed (pathStr : SyncPath)
  | actionDone (action : String) (kindStr : String) (pathStr : SyncPath)
  | removeFailed (kindStr : String) (pathStr : SyncPath) (code : Option Nat)
  | notFileOrDir (pathStr : SyncPath)
  | createFileFailed (pathStr : SyncPath)
  | unknownEvent
deriving DecidableEq

/-- `Path::strip_prefix(root)`: `some` of the remaining components when
`root` is a component prefix, `none` (a panic at the `.unwrap()` call sites)
otherwise. -/
def stripDir : SyncPath → SyncPath → Option SyncPath
  | [], p => some p
  | _ :: _, [] => none
  | a :: as, b :: bs => if a = b then stripDir as bs else none

/-- `path_str.ends_with('~')` where `path_str` is the joined relative path:
the joined string ends with `'~'` exactly when the last component does. -/
def pathStrEndsWithTilde (rel : SyncPath) : Bool :=
  match rel.getLast? with
  | some s => s.endsWith "~"
  | none => false

/-- `is_in_excluded_paths` (src/file_operations.rs:354-366):
`path.starts_with(excluded_path)` is component-prefix matching. -/
def isInExcludedPaths (env : Env) (path : SyncPath) : Bool :=
  if env.excludedPaths.isEmpty then false
  else env.excludedPaths.any (fun excludedPath => excludedPath.isPrefixOf path)

/-- `Utils::get_destination_path` (src/utils.rs:291-293). -/
def getDestinationPath (args : Args) (relativePath : SyncPath) : SyncPath :=
  args.target_dir ++ relativePath

/-- `Path::parent`: drop the last component; `none` for the empty path. -/
def pathParent : SyncPath → Option SyncPath
  | [] => none
  | l => some l.dropLast

/-- `Utils::get_destination_path_and_dirs` (src/utils.rs:284-289); `none`
models the panic of `dest_path.parent().unwrap()`. -/
def getDestinationPathAndDirs (args : Args) (relativePath : SyncPath) :
    Option (SyncPath × SyncPath) :=
  match pathParent (getDestinationPath args relativePath) with
  | none => none
  | some dirs => some (getDestinationPath args relativePath, dirs)

/-- Result of a handler invocation: the updated store, the attempted
filesystem mutations, and the emitted log lines. -/
structure HOut where
  store : LruCache
  ops : List FsOp
  logs : List LogLine
deriving DecidableEq

/-- `FileOperationsManager::write_in_file_store`
(src/file_operations.rs:314-336).  The initial `get` promotes the looked-up
entry; when present, `get_mut` then mutates it in place at MRU position,
setting `hash` only when the argument kind is `File` and always refreshing
`last_change` — the entry's own `path_type` is never changed. -/
def writeInFileStore (now : Nat) (store : LruCache) (path : SyncPath)
    (path_type : PathType) (currentHashOpt : Option Blake3Hash) : LruCache :=
  match store.peek path with
  | none => store.put path ⟨path_type, currentHashOpt, now⟩
  | some m =>
      { store with entries :=
          (path, ⟨m.path_type,
                  if path_type = PathType.File then currentHashOpt else m.hash,
                  now⟩) :: LruCache.eraseKey store.entries path }

/-- `FileOperationsManager::create_depends_dirs`
(src/file_operations.rs:338-351): ensure the destination's parent chain
exists, recording a `Dir` store entry (with no fingerprint) on success. -/
def createDependsDirs (env : Env) (now : Nat) (store : LruCache)
    (dirs pathStr : SyncPath) : HOut :=
  if !env.fs.pathExists dirs then
    if env.fs.createDirAllOk dirs then
      ⟨writeInFileStore now store dirs PathType.Dir none,
       [FsOp.createDirAll dirs], [LogLine.dirCreated pathStr]⟩
    else
      ⟨store, [FsOp.createDirAll dirs], [LogLine.createDirsFailed pathStr]⟩
  else ⟨store, [], []⟩

/-- One iteration of the loop in `FileOperationsManager::copy`
(src/file_operations.rs:19-136) for a single affected path.  `none` models
the panics of the `strip_prefix(...).unwrap()` / `parent().unwrap()` calls. -/
def copyOne (env : Env) (now : Nat) (store : LruCache) (srcPath : SyncPath) :
    Option HOut :=
  if isInExcludedPaths env (pathToVerbatim srcPath) then some ⟨store, [], []⟩
  else
    match stripDir env.args.source_dir (pathToVerbatim srcPath) with
    | none => none
    | some pathStr =>
      if env.args.no_temporary_editor_files && pathStrEndsWithTilde pathStr then
        some ⟨store, [], []⟩
      else
        match getDestinationPathAndDirs env.args pathStr with
        | none => none
        | some (destPath, dirs) =>
          match store.get (pathToVerbatim srcPath) with
          | (some path_metadata, store1) =>
            match path_metadata.path_type with
            | PathType.Dir =>
              if !env.fs.isDir destPath then
                if env.fs.createDirAllOk destPath then
                  some ⟨writeInFileStore now store1 (pathToVerbatim srcPath) PathType.Dir none,
                        [FsOp.createDirAll destPath],
                        [LogLine.dirCreated pathStr]⟩
                else
                  some ⟨store1, [FsOp.createDirAll destPath],
                        [LogLine.createDirsFailed pathStr]⟩
              else some ⟨store1, [], []⟩
            | PathType.File =>
              match (env.fs.readFile (pathToVerbatim srcPath)).map blake3Hash with
              | none =>
                if env.fs.copyFileOk (pathToVerbatim srcPath) destPath then
                  some ⟨writeInFileStore now
                          (createDependsDirs env now store1 dirs pathStr).store
                          (pathToVerbatim srcPath) PathType.File none,
                        (createDependsDirs env now store1 dirs pathStr).ops ++
                          [FsOp.copyFile (pathToVerbatim srcPath) destPath],
                        (createDependsDirs env now store1 dirs pathStr).logs ++
                          [LogLine.fileCopied pathStr]⟩
                else
                  some ⟨(createDependsDirs env now store1 dirs pathStr).store,
                        (createDependsDirs env now store1 dirs pathStr).ops ++
                          [FsOp.copyFile (pathToVerbatim srcPath) destPath],
                        (createDependsDirs env now store1 dirs pathStr).logs ++
                          [LogLine.copyFailed pathStr]⟩
              | some currentHash =>
                if decide (some currentHash = path_metadata.hash) &&
                    decide (now - path_metadata.last_change > 1000) then
                  some ⟨store1, [], [LogLine.identicalNotCopied pathStr]⟩
                else if decide (some currentHash = path_metadata.hash) then
                  some ⟨store1, [], []⟩
                else
                  if env.fs.copyFileOk (pathToVerbatim srcPath) destPath then
                    some ⟨writeInFileStore now
                            (createDependsDirs env now store1 dirs pathStr).store
                            (pathToVerbatim srcPath) PathType.File (some currentHash),
                          (createDependsDirs env now store1 dirs pathStr).ops ++
                            [FsOp.copyFile (pathToVerbatim srcPath) destPath],
                          (createDependsDirs env now store1 dirs pathStr).logs ++
                            [LogLine.fileCopied pathStr]⟩
                  else
                    some ⟨(createDependsDirs env now store1 dirs pathStr).store,
                          (createDependsDirs env now store1 dirs pathStr).ops ++
                            [FsOp.copyFile (pathToVerbatim srcPath) destPath],
                          (createDependsDirs env now store1 dirs pathStr).logs ++
                            [LogLine.copyFailed pathStr]⟩
          | (none, store1) =>
            if env.fs.isFile (pathToVerbatim srcPath) then
              if env.fs.copyFileOk (pathToVerbatim srcPath) destPath then
                some ⟨writeInFileStore now
                        (createDependsDirs env now store1 dirs pathStr).store
                        (pathToVerbatim srcPath) PathType.File
                        ((env.fs.readFile (pathToVerbatim srcPath)).map blake3Hash),
                      (createDependsDirs env now store1 dirs pathStr).ops ++
                        [FsOp.copyFile (pathToVerbatim srcPath) destPath],
                      (createDependsDirs env now store1 dirs pathStr).logs ++
                        [LogLine.fileCopied pathStr]⟩
              else
                some ⟨(createDependsDirs env now store1 dirs pathStr).store,
                      (createDependsDirs env now store1 dirs pathStr).ops ++
                        [FsOp.copyFile (pathToVerbatim srcPath) destPath],
                      (createDependsDirs env now store1 dirs pathStr).logs ++
                        [LogLine.copyFailed pathStr]⟩
            else if env.fs.isDir (pathToVerbatim srcPath) && !env.fs.isDir destPath then
              if env.fs.createDirAllOk destPath then
                some ⟨writeInFileStore now store1 (pathToVerbatim srcPath) PathType.Dir none,
                      [FsOp.createDirAll destPath],
                      [LogLine.dirCreated pathStr]⟩
              else
                some ⟨store1, [FsOp.createDirAll destPath],
                      [LogLine.createDirsFailed pathStr]⟩
            else some ⟨store1, [], []⟩

/-- `handle_remove_err` (src/file_operations.rs:368-392): OS error codes 2
and 3 ("path does not exist") are muted; every other failure — including one
with no OS code — is logged. -/
def handleRemoveErr (e : IoError) (pathStr : SyncPath) (entry_type : PathType) :
    List LogLine :=
  let entryTypeStr := match entry_type with
    | PathType.File => "file"
    | PathType.Dir => "dir"
  match e.rawOsError with
  | some osErrorCode =>
      if osErrorCode ≠ 2 ∧ osErrorCode ≠ 3 then
        [LogLine.removeFailed entryTypeStr pathStr (some osErrorCode)]
      else []
  | none => [LogLine.removeFailed entryTypeStr pathStr none]

/-- One iteration of the loop in `FileOperationsManager::remove`
(src/file_operations.rs:138-183).  The second component is `true` when the
iteration hit the early `return` (destination absent), which abandons the
remaining paths of the event. -/
def removeOne (env : Env) (store : LruCache) (srcPath : SyncPath) :
    Option (HOut × Bool) :=
  if isInExcludedPaths env (pathToVerbatim srcPath) then some (⟨store, [], []⟩, false)
  else
    match stripDir env.args.source_dir (pathToVerbatim srcPath) with
    | none => none
    | some pathStr =>
      if env.args.no_temporary_editor_files && pathStrEndsWithTilde pathStr then
        some (⟨store, [], []⟩, false)
      else
        if !env.fs.pathExists (getDestinationPath env.args pathStr) then
          some (⟨store, [], []⟩, true)
        else if env.fs.isFile (getDestinationPath env.args pathStr) then
          match env.fs.removeFileErr (getDestinationPath env.args pathStr) with
          | some e =>
            some (⟨(store.pop (pathToVerbatim srcPath)).2,
                   [FsOp.removeFile (getDestinationPath env.args pathStr)],
                   handleRemoveErr e pathStr PathType.File⟩, false)
          | none =>
            some (⟨(store.pop (pathToVerbatim srcPath)).2,
                   [FsOp.removeFile (getDestinationPath env.args pathStr)],
                   [LogLine.actionDone "deleted" "file" pathStr]⟩, false)
        else if env.fs.isDir (getDestinationPath env.args pathStr) then
          match env.fs.removeDirAllErr (getDestinationPath env.args pathStr) with
          | some e =>
            some (⟨(store.pop (pathToVerbatim srcPath)).2,
                   [FsOp.removeDirAll (getDestinationPath env.args pathStr)],
                   handleRemoveErr e pathStr PathType.Dir⟩, false)
          | none =>
            some (⟨(store.pop (pathToVerbatim srcPath)).2,
                   [FsOp.removeDirAll (getDestinationPath env.args pathStr)],
                   [LogLine.actionDone "deleted" "dir" pathStr]⟩, false)
        else some (⟨store, [], [LogLine.notFileOrDir pathStr]⟩, false)

/-- Result of one rename-loop iteration: updated store, updated pending
`rename_from` slot, effects, and the early-`return` flag. -/
structure ROut where
  store : LruCache
  slot : Option SyncPath
  ops : List FsOp
  logs : List LogLine
  halt : Bool
deriving DecidableEq

/-- The store re-keying performed after a successful `fs::rename`
(src/file_operations.rs:236-246).  Note the source pops the *old destination*
path (`old_path`, captured from the rename-from notification), not the old
source key. -/
def renameCommit (now : Nat) (store : LruCache)
    (vp oldPath destPath pathStr : SyncPath) (pt : PathType)
    (ptStr : String) : ROut :=
  match store.pop oldPath with
  | (some m, store1) =>
    ⟨store1.put vp { m with last_change := now }, none,
     [FsOp.renameFs oldPath destPath],
     [LogLine.actionDone "renamed" ptStr pathStr], false⟩
  | (none, store1) =>
    ⟨store1.put vp ⟨pt, none, now⟩, none,
     [FsOp.renameFs oldPath destPath],
     [LogLine.actionDone "renamed" ptStr pathStr], false⟩

/-- One iteration of the loop in `FileOperationsManager::rename`
(src/file_operations.rs:185-253) for a single affected path, parameterized by
the event kind (matched inside the loop) and the pending `rename_from`
slot. -/
def renameOne (env : Env) (now : Nat) (store : LruCache) (kind : EventKind)
    (slot : Option SyncPath) (srcPath : SyncPath) : Option ROut :=
  if isInExcludedPaths env (pathToVerbatim srcPath) then some ⟨store, slot, [], [], false⟩
  else
    match stripDir env.args.source_dir (pathToVerbatim srcPath) with
    | none => none
    | some pathStr =>
      if env.args.no_temporary_editor_files && pathStrEndsWithTilde pathStr then
        some ⟨store, slot, [], [], false⟩
      else
        match getDestinationPathAndDirs env.args pathStr with
        | none => none
        | some (destPath, _) =>
          match kind with
          | EventKind.modifyEv (ModifyKind.name RenameMode.fromSide) =>
            some ⟨store, some destPath, [], [], false⟩
          | EventKind.modifyEv (ModifyKind.name RenameMode.toSide) =>
            match slot with
            | some oldPath =>
              if env.fs.renameFsOk oldPath destPath then
                if env.fs.isFile (pathToVerbatim srcPath) then
                  some (renameCommit now store (pathToVerbatim srcPath) oldPath destPath pathStr
                          PathType.File "file")
                else if env.fs.isDir (pathToVerbatim srcPath) then
                  some (renameCommit now store (pathToVerbatim srcPath) oldPath destPath pathStr
                          PathType.Dir "dir")
                else
                  some ⟨store, none, [FsOp.renameFs oldPath destPath],
                        [LogLine.notFileOrDir pathStr], true⟩
              else
                some ⟨store, none, [FsOp.renameFs oldPath destPath], [], false⟩
            | none => some ⟨store, none, [], [], false⟩
          | _ => some ⟨store, slot, [], [], false⟩

/-- One iteration of the loop in `FileOperationsManager::create`
(src/file_operations.rs:255-312) for a single affected path. -/
def createOne (env : Env) (now : Nat) (store : LruCache) (srcPath : SyncPath) :
    Option HOut :=
  if isInExcludedPaths env (pathToVerbatim srcPath) then some ⟨store, [], []⟩
  else
    match stripDir env.args.source_dir (pathToVerbatim srcPath) with
    | none => none
    | some pathStr =>
      if env.args.no_temporary_editor_files && pathStrEndsWithTilde pathStr then
        some ⟨store, [], []⟩
      else
        match getDestinationPathAndDirs env.args pathStr with
        | none => none
        | some (destPath, dirs) =>
          match store.get (pathToVerbatim srcPath) with
          | (some _, store1) => some ⟨store1, [], []⟩
          | (none, store1) =>
            if env.fs.isFile (pathToVerbatim srcPath) && !env.fs.pathExists destPath then
              match env.fs.createFileErr destPath with
              | some _ =>
                some ⟨(createDependsDirs env now store1 dirs pathStr).store,
                      (createDependsDirs env now store1 dirs pathStr).ops ++
                        [FsOp.createFile destPath],
                      (createDependsDirs env now store1 dirs pathStr).logs ++
                        [LogLine.createFileFailed pathStr]⟩
              | none =>
                some ⟨writeInFileStore now
                        (createDependsDirs env now store1 dirs pathStr).store
                        (pathToVerbatim srcPath) PathType.File none,
                      (createDependsDirs env now store1 dirs pathStr).ops ++
                        [FsOp.createFile destPath],
                      (createDependsDirs env now store1 dirs pathStr).logs ++
                        [LogLine.actionDone "created" "file" pathStr]⟩
            else if env.fs.isDir (pathToVerbatim srcPath) && !env.fs.pathExists destPath then
              if env.fs.createDirAllOk destPath then
                some ⟨writeInFileStore now
                        (createDependsDirs env now store1 dirs pathStr).store
                        (pathToVerbatim srcPath) PathType.Dir none,
                      (createDependsDirs env now store1 dirs pathStr).ops ++
                        [FsOp.createDirAll destPath],
                      (createDependsDirs env now store1 dirs pathStr).logs ++
                        [LogLine.dirCreated pathStr,
                         LogLine.actionDone "created" "dir" pathStr]⟩
              else
                some ⟨(createDependsDirs env now store1 dirs pathStr).store,
                      (createDependsDirs env now store1 dirs pathStr).ops ++
                        [FsOp.createDirAll destPath],
                      (createDependsDirs env now store1 dirs pathStr).logs ++
                        [LogLine.createDirsFailed pathStr]⟩
            else some ⟨store1, [], []⟩

/-- The `for src_path in event.paths` loop of `FileOperationsManager::copy`.
(On Windows the list always has length one, per the source comment.) -/
def copyPaths (env : Env) (now : Nat) : LruCache → List SyncPath → Option HOut
  | store, [] => some ⟨store, [], []⟩
  | store, p :: rest =>
    match copyOne env now store p with
    | none => none
    | some o =>
      match copyPaths env now o.store rest with
      | none => none
      | some r => some ⟨r.store, o.ops ++ r.ops, o.logs ++ r.logs⟩

/-- The path loop of `FileOperationsManager::remove`; the early `return`
abandons the remaining paths. -/
def removePaths (env : Env) : LruCache → List SyncPath → Option HOut
  | store, [] => some ⟨store, [], []⟩
  | store, p :: rest =>
    match removeOne env store p with
    | none => none
    | some (o, halt) =>
      if halt then some o
      else
        match removePaths env o.store rest with
        | none => none
        | some r => some ⟨r.store, o.ops ++ r.ops, o.logs ++ r.logs⟩

/-- The path loop of `FileOperationsManager::rename`, threading the pending
`rename_from` slot; the early `return` abandons the remaining paths. -/
def renamePaths (env : Env) (now : Nat) (kind : EventKind) :
    LruCache → Option SyncPath → List SyncPath →
    Option (LruCache × Option SyncPath × List FsOp × List LogLine)
  | store, slot, [] => some (store, slot, [], [])
  | store, slot, p :: rest =>
    match renameOne env now store kind slot p with
    | none => none
    | some o =>
      if o.halt then some (o.store, o.slot, o.ops, o.logs)
      else
        match renamePaths env now kind o.store o.slot rest with
        | none => none
        | some (s, sl, ops, logs) =>
          some (s, sl, o.ops ++ ops, o.logs ++ logs)

/-- The path loop of `FileOperationsManager::create`. -/
def createPaths (env : Env) (now : Nat) : LruCache → List SyncPath → Option HOut
  | store, [] => some ⟨store, [], []⟩
  | store, p :: rest =>
    match createOne env now store p with
    | none => none
    | some o =>
      match createPaths env now o.store rest with
      | none => none
      | some r => some ⟨r.store, o.ops ++ r.ops, o.logs ++ r.logs⟩

/-- `EventHandler::handle_event` (src/event_handler.rs:25-56) together with
the routing helpers below it.  Crucially, `EventHandler::rename`
(src/event_handler.rs:62-65) invokes `FileOperationsManager::rename` with a
fresh `&mut None` as the `rename_from` slot — not the handler's own
`rename_from` field, which `handle_event` (taking `&self`) can never mutate —
so every rename notification starts with an empty pending slot and the
updated slot is discarded. -/
def handleEvent (env : Env) (now : Nat) (store : LruCache) (event : Event) :
    Option HOut :=
  match event.kind with
  | EventKind.createEv =>
    if !env.args.no_creation_events then createPaths env now store event.paths
    else some ⟨store, [], []⟩
  | EventKind.modifyEv (ModifyKind.name RenameMode.fromSide) =>
    match renamePaths env now event.kind store none event.paths with
    | none => none
    | some (s, _, ops, logs) => some ⟨s, ops, logs⟩
  | EventKind.modifyEv (ModifyKind.name RenameMode.toSide) =>
    match renamePaths env now event.kind store none event.paths with
    | none => none
    | some (s, _, ops, logs) => some ⟨s, ops, logs⟩
  | EventKind.modifyEv (ModifyKind.name RenameMode.otherMode) =>
    copyPaths env now store event.paths
  | EventKind.modifyEv ModifyKind.nonName => copyPaths env now store event.paths
  | EventKind.removeEv => removePaths env store event.paths
  | EventKind.accessEv => some ⟨store, [], []⟩
  | EventKind.otherEv => some ⟨store, [], [LogLine.unknownEvent]⟩

/-- A sequence of notifications processed by the event handler, each with its
capture time, threading the store exactly as the dispatcher does. -/
def handleEvents (env : Env) : LruCache → List (Nat × Event) → Option HOut
  | store, [] => some ⟨store, [], []⟩
  | store, (now, ev) :: rest =>
    match handleEvent env now store ev with
    | none => none
    | some o =>
      match handleEvents env o.store rest with
      | none => none
      | some r => some ⟨r.store, o.ops ++ r.ops, o.logs ++ r.logs⟩

/-- The result of one `fs::read` attempt as `Utils::retry_read_file_recursive`
inspects it: success with the bytes, an error carrying an OS error code, or
an error without one. -/
inductive ReadResult where
  | ok (content : List Nat)
  | errCode (code : Nat)
  | errNoCode
deriving DecidableEq

/-- `Utils::retry_read_file_recursive` (src/utils.rs:303-328), with the
filesystem modelled as a function from the attempt counter `i` to that
attempt's outcome.  Returns the final result together with the number of
`fs::read` attempts performed and the number of `sleep(wait_millis)` calls
executed (each sleep has the same fixed duration `wait_millis`). -/
def retryReadFileRecursive (readAt : Nat → ReadResult)
    (retry_count wait_millis i : Nat) : Option (List Nat) × Nat × Nat :=
  if i > retry_count then (none, 0, 0)
  else
    match readAt i with
    | ReadResult.ok fileContents => (some fileContents, 1, 0)
    | ReadResult.errCode osErrorCode =>
      if osErrorCode = 32 then
        ((retryReadFileRecursive readAt retry_count wait_millis (i + 1)).1,
         (retryReadFileRecursive readAt retry_count wait_millis (i + 1)).2.1 + 1,
         (retryReadFileRecursive readAt retry_count wait_millis (i + 1)).2.2 + 1)
      else (none, 1, 0)
    | ReadResult.errNoCode => (none, 1, 0)
termination_by retry_count + 1 - i
decreasing_by omega

/-- `Utils::retry_read_file` (src/utils.rs:295-301). -/
def retryReadFile (readAt : Nat → ReadResult) (retry_count wait_millis : Nat) :
    Option (List Nat) × Nat × Nat :=
  retryReadFileRecursive readAt retry_count wait_millis 0

/-- The spec invariant: a `Dir` store entry never carries a fingerprint. -/
def DirNoHash (store : LruCache) : Prop :=
  ∀ e ∈ store.entries, e.2.path_type = PathType.Dir → e.2.hash = none

instance (store : LruCache) : Decidable (DirNoHash store) := by
  unfold DirNoHash; infer_instance

/-- A filesystem oracle on which every query fails / every path is absent;
concrete scenarios override the fields they need. -/
def fsDefault : FsView where
  isFile := fun _ => false
  isDir := fun _ => false
  pathExists := fun _ => false
  readFile := fun _ => none
  copyFileOk := fun _ _ => false
  createDirAllOk := fun _ => false
  createFileErr := fun _ => none
  removeFileErr := fun _ => none
  removeDirAllErr := fun _ => none
  renameFsOk := fun _ _ => true

/-- Sample configuration: watch `s`, mirror into `t`, no flags. -/
def argsDefault : Args where
  source_dir := ["s"]
  target_dir := ["t"]
  no_temporary_editor_files := false
  no_creation_events := false

/-- Sample environment with no excluded paths and the default oracle. -/
def envPlain : Env := ⟨argsDefault, [], fsDefault⟩

/-- Environment for the rename scenario: the new source path `s/b` is a
file and the OS rename call succeeds. -/
def envRename : Env :=
  ⟨argsDefault, [],
   { fsDefault with isFile := fun p => decide (p = ["s", "b"]) }⟩

/-- Store entry for source file `s/a`: fingerprint `[1]`, recorded at time 0. -/
def metaA : PathMetadata := ⟨PathType.File, some [1], 0⟩

/-- A store holding exactly the entry for `s/a`. -/
def storeA : LruCache := ⟨32768, [(["s", "a"], metaA)]⟩

/-- A rename-from notification for `s/a`. -/
def fromEvA : Event :=
  ⟨EventKind.modifyEv (ModifyKind.name RenameMode.fromSide), [["s", "a"]]⟩

/-- A rename-to notification for `s/b`. -/
def toEvB : Event :=
  ⟨EventKind.modifyEv (ModifyKind.name RenameMode.toSide), [["s", "b"]]⟩

/-- Environment for the copy-deduplication scenario: reading `s/a` yields the
bytes `[9]`. -/
def envCopyId : Env :=
  ⟨argsDefault, [],
   { fsDefault with
      readFile := fun p => if p = ["s", "a"] then some [9] else none }⟩

/-- A store whose entry for `s/a` already carries the fingerprint of `[9]`,
last confirmed at time 100. -/
def storeCopyId : LruCache := ⟨32768, [(["s", "a"], ⟨PathType.File, some [9], 100⟩)]⟩

/-- Environment for the excluded-path scenario: `s/.git` is excluded. -/
def envExcl : Env := ⟨argsDefault, [["s", ".git"]], fsDefault⟩

/-- Environment for the read-failure recovery scenario: every read fails, the
OS copy succeeds, and the destination parent `t` already exists. -/
def envReadFail : Env :=
  ⟨argsDefault, [],
   { fsDefault with
      copyFileOk := fun _ _ => true
      pathExists := fun p => decide (p = ["t"]) }⟩

/-- Environment for the removal scenario: the mirrored destination `t/a`
exists and is a file, and removing it succeeds. -/
def envRemove : Env :=
  ⟨argsDefault, [],
   { fsDefault with
      pathExists := fun p => decide (p = ["t", "a"])
      isFile := fun p => decide (p = ["t", "a"]) }⟩

/-- A second store entry value, fingerprint `[2]`. -/
def metaB : PathMetadata := ⟨PathType.File, some [2], 0⟩

/-- A `FileStore` holding `a` (inserted first, hence least recently used) and
then `b`. -/
def fsStoreAB : FileStore :=
  FileStore.create (FileStore.create FileStore.new ["a"] metaA) ["b"] metaB

theorem mem_eraseKey {l : List (SyncPath × PathMetadata)} {k : SyncPath}
    {e : SyncPath × PathMetadata} (h : e ∈ LruCache.eraseKey l k) : e ∈ l :=
  List.mem_of_mem_filter h

theorem eraseKey_no_self {l : List (SyncPath × PathMetadata)} {k : SyncPath}
    {m : PathMetadata} : (k, m) ∉ LruCache.eraseKey l k := by
  intro h
  have hp := List.of_mem_filter h
  simp at hp

theorem peek_eq_some_mem {c : LruCache} {k : SyncPath} {m : PathMetadata}
    (h : c.peek k = some m) : (k, m) ∈ c.entries := by
  unfold LruCache.peek at h
  cases hf : c.entries.find? (fun e => decide (e.1 = k)) with
  | none => rw [hf] at h; simp at h
  | some e =>
    rw [hf] at h
    simp at h
    have hmem := List.mem_of_find?_eq_some hf
    have hkey := List.find?_some hf
    simp at hkey
    obtain ⟨k', m'⟩ := e
    simp at hkey h
    subst hkey h
    exact hmem

theorem peek_eq_none_not_mem {c : LruCache} {k : SyncPath}
    (h : c.peek k = none) : ∀ m, (k, m) ∉ c.entries := by
  intro m hm
  unfold LruCache.peek at h
  cases hf : c.entries.find? (fun e => decide (e.1 = k)) with
  | some e => rw [hf] at h; simp at h
  | none =>
    have := List.find?_eq_none.mp hf (k, m) hm
    simp at this

theorem peek_get_snd_self (c : LruCache) (k : SyncPath) :
    ((c.get k).2).peek k = c.peek k := by
  unfold LruCache.get
  cases hp : c.peek k with
  | none => simp [hp]
  | some v => simp [LruCache.peek, List.find?]

theorem mem_get_snd {c : LruCache} {k : SyncPath} {e : SyncPath × PathMetadata}
    (h : e ∈ ((c.get k).2).entries) : e ∈ c.entries := by
  unfold LruCache.get at h
  cases hp : c.peek k with
  | none => rw [hp] at h; exact h
  | some v =>
    rw [hp] at h
    simp at h
    rcases h with h | h
    · subst h; exact peek_eq_some_mem hp
    · exact mem_eraseKey h

theorem get_key_unique {c : LruCache} {k : SyncPath} {m x : PathMetadata}
    (hp : c.peek k = some m) (h : (k, x) ∈ ((c.get k).2).entries) : x = m := by
  unfold LruCache.get at h
  rw [hp] at h
  simp at h
  rcases h with h | h
  · exact h
  · exact absurd h eraseKey_no_self

theorem mem_put {c : LruCache} {k : SyncPath} {v : PathMetadata}
    {e : SyncPath × PathMetadata} (h : e ∈ (c.put k v).entries) :
    e = (k, v) ∨ e ∈ c.entries := by
  unfold LruCache.put at h
  have h' := List.take_subset _ _ h
  simp at h'
  rcases h' with h' | h'
  · exact Or.inl h'
  · exact Or.inr (mem_eraseKey h')

theorem peek_put_self {c : LruCache} (hcap : 1 ≤ c.cap) (k : SyncPath)
    (v : PathMetadata) : (c.put k v).peek k = some v := by
  obtain ⟨n, hn⟩ : ∃ n, c.cap = n + 1 := ⟨c.cap - 1, by omega⟩
  simp [LruCache.put, LruCache.peek, hn, List.find?]

theorem peek_pop_snd_self (c : LruCache) (k : SyncPath) :
    ((c.pop k).2).peek k = none := by
  unfold LruCache.pop LruCache.peek
  simp only
  have hnone :
      (LruCache.eraseKey c.entries k).find? (fun e => decide (e.1 = k)) = none := by
    rw [List.find?_eq_none]
    intro e he
    have hp := List.of_mem_filter he
    simpa using hp
  rw [hnone]
  rfl

theorem cap_get_snd (c : LruCache) (k : SyncPath) : ((c.get k).2).cap = c.cap := by
  unfold LruCache.get
  cases c.peek k <;> simp

theorem cap_writeInFileStore (now : Nat) (c : LruCache) (k : SyncPath)
    (pt : PathType) (h : Option Blake3Hash) :
    (writeInFileStore now c k pt h).cap = c.cap := by
  unfold writeInFileStore
  cases c.peek k <;> simp [LruCache.put]

theorem cap_createDependsDirs (env : Env) (now : Nat) (c : LruCache)
    (dirs ps : SyncPath) : (createDependsDirs env now c dirs ps).store.cap = c.cap := by
  unfold createDependsDirs
  split
  · split
    · simp [cap_writeInFileStore]
    · simp
  · simp

theorem peek_writeInFileStore_self_none {now : Nat} {c : LruCache} {k : SyncPath}
    {pt : PathType} {h : Option Blake3Hash} (hcap : 1 ≤ c.cap)
    (hp : c.peek k = none) :
    (writeInFileStore now c k pt h).peek k = some ⟨pt, h, now⟩ := by
  unfold writeInFileStore
  rw [hp]
  exact peek_put_self hcap k _

theorem peek_writeInFileStore_self_some {now : Nat} {c : LruCache} {k : SyncPath}
    {pt : PathType} {h : Option Blake3Hash} {m : PathMetadata}
    (hp : c.peek k = some m) :
    (writeInFileStore now c k pt h).peek k =
      some ⟨m.path_type, if pt = PathType.File then h else m.hash, now⟩ := by
  unfold writeInFileStore
  rw [hp]
  simp [LruCache.peek, List.find?]

theorem mem_writeInFileStore_ne {now : Nat} {c : LruCache} {k : SyncPath}
    {pt : PathType} {h : Option Blake3Hash} {e : SyncPath × PathMetadata}
    (he : e ∈ (writeInFileStore now c k pt h).entries) (hne : e.1 ≠ k) :
    e ∈ c.entries := by
  unfold writeInFileStore at he
  cases hp : c.peek k with
  | none =>
    rw [hp] at he
    rcases mem_put he with h' | h'
    · exact absurd (congrArg Prod.fst h') hne
    · exact h'
  | some m =>
    rw [hp] at he
    simp at he
    rcases he with h' | h'
    · exact absurd (congrArg Prod.fst h') hne
    · exact mem_eraseKey h'

theorem dirNoHash_get_snd {c : LruCache} {k : SyncPath} (hs : DirNoHash c) :
    DirNoHash ((c.get k).2) :=
  fun e he => hs e (mem_get_snd he)

theorem dirNoHash_pop_snd {c : LruCache} {k : SyncPath} (hs : DirNoHash c) :
    DirNoHash ((c.pop k).2) :=
  fun e he => hs e (mem_eraseKey he)

theorem dirNoHash_put {c : LruCache} {k : SyncPath} {v : PathMetadata}
    (hs : DirNoHash c) (hv : v.path_type = PathType.Dir → v.hash = none) :
    DirNoHash (c.put k v) := by
  intro e he
  rcases mem_put he with h | h
  · subst h; exact hv
  · exact hs e h

theorem dirNoHash_writeInFileStore {now : Nat} {c : LruCache} {k : SyncPath}
    {pt : PathType} {hsh : Option Blake3Hash} (hs : DirNoHash c)
    (hdir : pt = PathType.Dir → hsh = none)
    (hfile : pt = PathType.File →
      ∀ m, c.peek k = some m → m.path_type = PathType.Dir → hsh = none) :
    DirNoHash (writeInFileStore now c k pt hsh) := by
  intro e he hde
  unfold writeInFileStore at he
  cases hp : c.peek k with
  | none =>
    rw [hp] at he
    rcases mem_put he with h | h
    · subst h
      simp at hde ⊢
      exact hdir hde
    · exact hs e h hde
  | some m =>
    rw [hp] at he
    simp at he
    rcases he with h | h
    · subst h
      simp at hde ⊢
      cases hpt : pt with
      | File =>
        rw [hpt] at hfile
        rw [if_pos rfl]
        exact hfile rfl m hp hde
      | Dir =>
        rw [if_neg (by simp)]
        exact hs (k, m) (peek_eq_some_mem hp) hde
    · exact hs e (mem_eraseKey h) hde

theorem dirNoHash_createDependsDirs {env : Env} {now : Nat} {c : LruCache}
    {dirs ps : SyncPath} (hs : DirNoHash c) :
    DirNoHash (createDependsDirs env now c dirs ps).store := by
  unfold createDependsDirs
  split
  · split
    · simp only
      exact dirNoHash_writeInFileStore hs (fun _ => rfl) (fun hpt => by cases hpt)
    · exact hs
  · exact hs

theorem createDependsDirs_logs (env : Env) (now : Nat) (c : LruCache)
    (dirs ps : SyncPath) :
    (createDependsDirs env now c dirs ps).logs = [] ∨
    (createDependsDirs env now c dirs ps).logs = [LogLine.dirCreated ps] ∨
    (createDependsDirs env now c dirs ps).logs = [LogLine.createDirsFailed ps] := by
  unfold createDependsDirs
  split
  · split
    · exact Or.inr (Or.inl rfl)
    · exact Or.inr (Or.inr rfl)
  · exact Or.inl rfl

theorem createDependsDirs_peek_kind {env : Env} {now : Nat} {store : LruCache}
    {vp dirs ps : SyncPath} {pm : PathMetadata}
    (hget : store.peek vp = some pm) :
    ∀ m', (createDependsDirs env now ((store.get vp).2) dirs ps).store.peek
            vp = some m' → m'.path_type = pm.path_type := by
  intro m' hm'
  have hp1 : ((store.get vp).2).peek vp = some pm := by
    rw [peek_get_snd_self]; exact hget
  unfold createDependsDirs at hm'
  by_cases hw : (!env.fs.pathExists dirs) = true
  · rw [if_pos hw] at hm'
    by_cases hok : env.fs.createDirAllOk dirs = true
    · rw [if_pos hok] at hm'
      simp only at hm'
      by_cases hdv : dirs = vp
      · subst hdv
        rw [peek_writeInFileStore_self_some hp1] at hm'
        simp at hm'
        rw [← hm']
      · have hmem := peek_eq_some_mem hm'
        have hmem2 := mem_writeInFileStore_ne hmem (by simpa using Ne.symm hdv)
        have := get_key_unique hget hmem2
        rw [this]
    · rw [if_neg hok] at hm'
      simp only at hm'
      rw [hp1] at hm'
      simp at hm'
      rw [← hm']
  · rw [if_neg hw] at hm'
    simp only at hm'
    rw [hp1] at hm'
    simp at hm'
    rw [← hm']

theorem createDependsDirs_peek_none {env : Env} {now : Nat} {store : LruCache}
    {vp dirs ps : SyncPath} (hp : store.peek vp = none)
    (hex : env.fs.pathExists vp = true) :
    (createDependsDirs env now store dirs ps).store.peek vp = none := by
  unfold createDependsDirs
  by_cases hw : (!env.fs.pathExists dirs) = true
  · rw [if_pos hw]
    by_cases hok : env.fs.createDirAllOk dirs = true
    · rw [if_pos hok]
      simp only
      by_cases hdv : dirs = vp
      · subst hdv
        simp [hex] at hw
      · cases hres : (writeInFileStore now store dirs PathType.Dir none).peek vp with
        | none => rfl
        | some m' =>
          have hmem := peek_eq_some_mem hres
          have hmem2 := mem_writeInFileStore_ne hmem (by simpa using Ne.symm hdv)
          exact absurd hmem2 (peek_eq_none_not_mem hp m')
    · rw [if_neg hok]
      exact hp
  · rw [if_neg hw]
    exact hp

theorem get_fst (c : LruCache) (k : SyncPath) : (c.get k).1 = c.peek k := by
  unfold LruCache.get
  cases c.peek k <;> simp

theorem dirNoHash_copyOne {env : Env} {now : Nat} {store : LruCache}
    {p : SyncPath} {out : HOut}
    (hcoh : ∀ q, env.fs.isFile q = true → env.fs.pathExists q = true)
    (hs : DirNoHash store) (h : copyOne env now store p = some out) :
    DirNoHash out.store := by
  unfold copyOne at h
  split at h
  · cases h; exact hs
  · split at h
    · exact absurd h (by simp)
    · split at h
      · cases h; exact hs
      · split at h
        · exact absurd h (by simp)
        · rename_i pathStr hstrip htmp pr destPath dirs hdd
          split at h
          · -- store entry present
            rename_i pm store1 hget
            have hpeek : store.peek (pathToVerbatim p) = some pm := by
              rw [← get_fst]; rw [hget]
            have hsnd : (store.get (pathToVerbatim p)).2 = store1 := by rw [hget]
            have hs1 : DirNoHash store1 := hsnd ▸ dirNoHash_get_snd hs
            split at h
            · -- Dir entry
              split at h
              · split at h
                · cases h
                  exact dirNoHash_writeInFileStore hs1 (fun _ => rfl)
                    (fun hpt => absurd hpt (by simp))
                · cases h; exact hs1
              · cases h; exact hs1
            · -- File entry
              rename_i hpt
              split at h
              · -- read failed
                split at h
                · cases h
                  exact dirNoHash_writeInFileStore
                    (dirNoHash_createDependsDirs hs1)
                    (fun hq => by cases hq) (fun _ _ _ _ => rfl)
                · cases h
                  exact dirNoHash_createDependsDirs hs1
              · -- read succeeded
                rename_i currentHash hch
                split at h
                · cases h; exact hs1
                · split at h
                  · cases h; exact hs1
                  · split at h
                    · cases h
                      refine dirNoHash_writeInFileStore
                        (dirNoHash_createDependsDirs hs1)
                        (fun hq => by cases hq) ?_
                      intro _ m' hm' hdirm
                      have hm'2 :
                          (createDependsDirs env now
                            ((store.get (pathToVerbatim p)).2) dirs
                            pathStr).store.peek (pathToVerbatim p) = some m' := by
                        rw [hsnd]; exact hm'
                      have hkind := createDependsDirs_peek_kind hpeek m' hm'2
                      rw [hkind, hpt] at hdirm
                      cases hdirm
                    · cases h
                      exact dirNoHash_createDependsDirs hs1
          · -- no store entry
            rename_i store1 hget
            have hpeek : store.peek (pathToVerbatim p) = none := by
              rw [← get_fst]; rw [hget]
            have hsnd : (store.get (pathToVerbatim p)).2 = store1 := by rw [hget]
            have hs1 : DirNoHash store1 := hsnd ▸ dirNoHash_get_snd hs
            have hpeek1 : store1.peek (pathToVerbatim p) = none := by
              rw [← hsnd, peek_get_snd_self]; exact hpeek
            split at h
            · -- is_file
              rename_i hisf
              split at h
              · cases h
                refine dirNoHash_writeInFileStore
                  (dirNoHash_createDependsDirs hs1)
                  (fun hq => by cases hq) ?_
                intro _ m' hm' _
                have hex := hcoh _ hisf
                rw [createDependsDirs_peek_none hpeek1 hex] at hm'
                cases hm'
              · cases h
                exact dirNoHash_createDependsDirs hs1
            · split at h
              · split at h
                · cases h
                  exact dirNoHash_writeInFileStore hs1 (fun _ => rfl)
                    (fun hq => by cases hq)
                · cases h; exact hs1
              · cases h; exact hs1

theorem dirNoHash_renameCommit {now : Nat} {store : LruCache}
    {vp oldPath destPath ps : SyncPath} {pt : PathType} {s : String}
    (hs : DirNoHash store) :
    DirNoHash (renameCommit now store vp oldPath destPath ps pt s).store := by
  unfold renameCommit
  split
  · rename_i m store1 hpop
    have hpk : store.peek oldPath = some m := by
      have := congrArg Prod.fst hpop
      simpa [LruCache.pop] using this
    have hsnd : (store.pop oldPath).2 = store1 := by rw [hpop]
    have hs1 : DirNoHash store1 := hsnd ▸ dirNoHash_pop_snd hs
    exact dirNoHash_put hs1 (fun hd => hs (oldPath, m) (peek_eq_some_mem hpk) hd)
  · rename_i store1 hpop
    have hsnd : (store.pop oldPath).2 = store1 := by rw [hpop]
    have hs1 : DirNoHash store1 := hsnd ▸ dirNoHash_pop_snd hs
    exact dirNoHash_put hs1 (fun _ => rfl)

theorem dirNoHash_renameOne {env : Env} {now : Nat} {store : LruCache}
    {kind : EventKind} {slot : Option SyncPath} {p : SyncPath} {out : ROut}
    (hs : DirNoHash store) (h : renameOne env now store kind slot p = some out) :
    DirNoHash out.store := by
  unfold renameOne at h
  split at h
  · cases h; exact hs
  · split at h
    · exact absurd h (by simp)
    · split at h
      · cases h; exact hs
      · split at h
        · exact absurd h (by simp)
        · split at h
          · cases h; exact hs
          · split at h
            · split at h
              · split at h
                · cases h; exact dirNoHash_renameCommit hs
                · split at h
                  · cases h; exact dirNoHash_renameCommit hs
                  · cases h; exact hs
              · cases h; exact hs
            · cases h; exact hs
          · cases h; exact hs

theorem dirNoHash_removeOne {env : Env} {store : LruCache} {p : SyncPath}
    {out : HOut} {b : Bool} (hs : DirNoHash store)
    (h : removeOne env store p = some (out, b)) : DirNoHash out.store := by
  unfold removeOne at h
  split at h
  · cases h; exact hs
  · split at h
    · exact absurd h (by simp)
    · split at h
      · cases h; exact hs
      · split at h
        · cases h; exact hs
        · split at h
          · split at h
            · cases h; exact dirNoHash_pop_snd hs
            · cases h; exact dirNoHash_pop_snd hs
          · split at h
            · split at h
              · cases h; exact dirNoHash_pop_snd hs
              · cases h; exact dirNoHash_pop_snd hs
            · cases h; exact hs

theorem dirNoHash_createOne {env : Env} {now : Nat} {store : LruCache}
    {p : SyncPath} {out : HOut} (hs : DirNoHash store)
    (h : createOne env now store p = some out) : DirNoHash out.store := by
  unfold createOne at h
  split at h
  · cases h; exact hs
  · split at h
    · exact absurd h (by simp)
    · split at h
      · cases h; exact hs
      · split at h
        · exact absurd h (by simp)
        · rename_i pathStr hstrip htmp pr destPath dirs hdd
          split at h
          · rename_i pm store1 hget
            cases h
            have hsnd : (store.get (pathToVerbatim p)).2 = store1 := by rw [hget]
            exact hsnd ▸ dirNoHash_get_snd hs
          · rename_i store1 hget
            have hsnd : (store.get (pathToVerbatim p)).2 = store1 := by rw [hget]
            have hs1 : DirNoHash store1 := hsnd ▸ dirNoHash_get_snd hs
            split at h
            · split at h
              · cases h; exact dirNoHash_createDependsDirs hs1
              · cases h
                exact dirNoHash_writeInFileStore
                  (dirNoHash_createDependsDirs hs1)
                  (fun hq => by cases hq) (fun _ _ _ _ => rfl)
            · split at h
              · split at h
                · cases h
                  exact dirNoHash_writeInFileStore
                    (dirNoHash_createDependsDirs hs1)
                    (fun _ => rfl) (fun hq => by cases hq)
                · cases h; exact dirNoHash_createDependsDirs hs1
              · cases h; exact hs1

theorem dirNoHash_copyPaths {env : Env} {now : Nat}
    (hcoh : ∀ q, env.fs.isFile q = true → env.fs.pathExists q = true) :
    ∀ {paths : List SyncPath} {store : LruCache} {out : HOut},
      DirNoHash store → copyPaths env now store paths = some out →
      DirNoHash out.store := by
  intro paths
  induction paths with
  | nil =>
    intro store out hs h
    unfold copyPaths at h
    cases h; exact hs
  | cons q rest ih =>
    intro store out hs h
    unfold copyPaths at h
    cases hc : copyOne env now store q with
    | none => rw [hc] at h; simp at h
    | some o =>
      rw [hc] at h
      simp only [] at h
      cases hr : copyPaths env now o.store rest with
      | none => rw [hr] at h; simp at h
      | some r =>
        rw [hr] at h
        simp only [] at h
        cases h
        have hres := ih (dirNoHash_copyOne hcoh hs hc) hr
        exact hres

theorem dirNoHash_removePaths {env : Env} :
    ∀ {paths : List SyncPath} {store : LruCache} {out : HOut},
      DirNoHash store → removePaths env store paths = some out →
      DirNoHash out.store := by
  intro paths
  induction paths with
  | nil =>
    intro store out hs h
    unfold removePaths at h
    cases h; exact hs
  | cons q rest ih =>
    intro store out hs h
    unfold removePaths at h
    cases hc : removeOne env store q with
    | none => rw [hc] at h; simp at h
    | some ob =>
      obtain ⟨o, b⟩ := ob
      rw [hc] at h
      simp only [] at h
      by_cases hb : b = true

      · rw [hb] at h
        simp at h
        rw [← h]
        exact dirNoHash_removeOne hs hc
      · rw [Bool.not_eq_true] at hb
        rw [hb] at h
        simp at h
        cases hr : removePaths env o.store rest with
        | none => rw [hr] at h; simp at h
        | some r =>
          rw [hr] at h
          simp only [] at h
          cases h
          have hres := ih (dirNoHash_removeOne hs hc) hr
          exact hres

theorem dirNoHash_renamePaths {env : Env} {now : Nat} {kind : EventKind} :
    ∀ {paths : List SyncPath} {store : LruCache} {slot : Option SyncPath}
      {res : LruCache × Option SyncPath × List FsOp × List LogLine},
      DirNoHash store → renamePaths env now kind store slot paths = some res →
      DirNoHash res.1 := by
  intro paths
  induction paths with
  | nil =>
    intro store slot res hs h
    unfold renamePaths at h
    cases h; exact hs
  | cons q rest ih =>
    intro store slot res hs h
    unfold renamePaths at h
    cases hc : renameOne env now store kind slot q with
    | none => rw [hc] at h; simp at h
    | some o =>
      rw [hc] at h
      simp only [] at h
      by_cases hb : o.halt = true
      · rw [if_pos hb] at h
        cases h
        exact dirNoHash_renameOne hs hc
      · rw [if_neg hb] at h
        cases hr : renamePaths env now kind o.store o.slot rest with
        | none => rw [hr] at h; simp at h
        | some r =>
          obtain ⟨s, sl, ops, logs⟩ := r
          rw [hr] at h
          simp only [] at h
          cases h
          have hres := ih (dirNoHash_renameOne hs hc) hr
          exact hres

theorem dirNoHash_createPaths {env : Env} {now : Nat} :
    ∀ {paths : List SyncPath} {store : LruCache} {out : HOut},
      DirNoHash store → createPaths env now store paths = some out →
      DirNoHash out.store := by
  intro paths
  induction paths with
  | nil =>
    intro store out hs h
    unfold createPaths at h
    cases h; exact hs
  | cons q rest ih =>
    intro store out hs h
    unfold createPaths at h
    cases hc : createOne env now store q with
    | none => rw [hc] at h; simp at h
    | some o =>
      rw [hc] at h
      simp only [] at h
      cases hr : createPaths env now o.store rest with
      | none => rw [hr] at h; simp at h
      | some r =>
        rw [hr] at h
        simp only [] at h
        cases h
        have hres := ih (dirNoHash_createOne hs hc) hr
        exact hres

theorem retryRec_step (readAt : Nat → ReadResult) (rc w i : Nat) :
    retryReadFileRecursive readAt rc w i =
      if i > rc then (none, 0, 0)
      else
        match readAt i with
        | ReadResult.ok c => (some c, 1, 0)
        | ReadResult.errCode code =>
          if code = 32 then
            ((retryReadFileRecursive readAt rc w (i + 1)).1,
             (retryReadFileRecursive readAt rc w (i + 1)).2.1 + 1,
             (retryReadFileRecursive readAt rc w (i + 1)).2.2 + 1)
          else (none, 1, 0)
        | ReadResult.errNoCode => (none, 1, 0) := by
  rw [retryReadFileRecursive]

theorem retryRec_reads_le (readAt : Nat → ReadResult) (rc w : Nat) :
    ∀ n i, rc + 1 - i ≤ n →
      (retryReadFileRecursive readAt rc w i).2.1 ≤ rc + 1 - i := by
  intro n
  induction n with
  | zero =>
    intro i h
    have hi : i > rc := by omega
    rw [retryRec_step, if_pos hi]
    simp
  | succ n ih =>
    intro i h
    rw [retryRec_step]
    by_cases hi : i > rc
    · rw [if_pos hi]
      simp
    · rw [if_neg hi]
      cases hr : readAt i with
      | ok c => simp; omega
      | errCode code =>
        simp only []
        by_cases h32 : code = 32
        · rw [if_pos h32]
          simp only []
          have := ih (i + 1) (by omega)
          omega
        · rw [if_neg h32]; simp; omega
      | errNoCode => simp; omega

theorem retryRec_all32 (rc w : Nat) :
    ∀ n i, rc + 1 - i ≤ n →
      retryReadFileRecursive (fun _ => ReadResult.errCode 32) rc w i =
        (none, rc + 1 - i, rc + 1 - i) := by
  intro n
  induction n with
  | zero =>
    intro i h
    have hi : i > rc := by omega
    rw [retryRec_step, if_pos hi]
    have h0 : rc + 1 - i = 0 := by omega
    rw [h0]
  | succ n ih =>
    intro i h
    by_cases hi : i > rc
    · rw [retryRec_step, if_pos hi]
      have h0 : rc + 1 - i = 0 := by omega
      rw [h0]
    · rw [retryRec_step, if_neg hi]
      rw [ih (i + 1) (by omega)]
      simp
      omega

theorem retryRec_success (readAt : Nat → ReadResult) (rc w k : Nat) (c : List Nat)
    (hk : readAt k = ReadResult.ok c) (hkrc : k ≤ rc) :
    ∀ n i, k - i ≤ n → i ≤ k →
      (∀ j, i ≤ j → j < k → readAt j = ReadResult.errCode 32) →
      retryReadFileRecursive readAt rc w i = (some c, k + 1 - i, k - i) := by
  intro n
  induction n with
  | zero =>
    intro i h hik hpre
    have hik' : i = k := by omega
    subst hik'
    rw [retryRec_step, if_neg (by omega), hk]
    have h1 : i + 1 - i = 1 := by omega
    have h2 : i - i = 0 := by omega
    rw [h1, h2]
  | succ n ih =>
    intro i h hik hpre
    by_cases hik' : i = k
    · subst hik'
      rw [retryRec_step, if_neg (by omega), hk]
      have h1 : i + 1 - i = 1 := by omega
      have h2 : i - i = 0 := by omega
      rw [h1, h2]
    · have hlt : i < k := by omega
      rw [retryRec_step, if_neg (by omega), hpre i (by omega) hlt]
      rw [ih (i + 1) (by omega) (by omega) (fun j hj1 hj2 => hpre j (by omega) hj2)]
      simp
      omega

theorem retryRec_errCode_stop (readAt : Nat → ReadResult) (rc w k code : Nat)
    (hk : readAt k = ReadResult.errCode code) (h32 : code ≠ 32) (hkrc : k ≤ rc) :
    ∀ n i, k - i ≤ n → i ≤ k →
      (∀ j, i ≤ j → j < k → readAt j = ReadResult.errCode 32) →
      retryReadFileRecursive readAt rc w i = (none, k + 1 - i, k - i) := by
  intro n
  induction n with
  | zero =>
    intro i h hik hpre
    have hik' : i = k := by omega
    subst hik'
    rw [retryRec_step, if_neg (by omega), hk]
    simp only []
    rw [if_neg h32]
    have h1 : i + 1 - i = 1 := by omega
    have h2 : i - i = 0 := by omega
    rw [h1, h2]
  | succ n ih =>
    intro i h hik hpre
    by_cases hik' : i = k
    · subst hik'
      rw [retryRec_step, if_neg (by omega), hk]
      simp only []
      rw [if_neg h32]
      have h1 : i + 1 - i = 1 := by omega
      have h2 : i - i = 0 := by omega
      rw [h1, h2]
    · have hlt : i < k := by omega
      rw [retryRec_step, if_neg (by omega), hpre i (by omega) hlt]
      rw [ih (i + 1) (by omega) (by omega) (fun j hj1 hj2 => hpre j (by omega) hj2)]
      simp
      omega

theorem retryRec_errNoCode_stop (readAt : Nat → ReadResult) (rc w k : Nat)
    (hk : readAt k = ReadResult.errNoCode) (hkrc : k ≤ rc) :
    ∀ n i, k - i ≤ n → i ≤ k →
      (∀ j, i ≤ j → j < k → readAt j = ReadResult.errCode 32) →
      retryReadFileRecursive readAt rc w i = (none, k + 1 - i, k - i) := by
  intro n
  induction n with
  | zero =>
    intro i h hik hpre
    have hik' : i = k := by omega
    subst hik'
    rw [retryRec_step, if_neg (by omega), hk]
    have h1 : i + 1 - i = 1 := by omega
    have h2 : i - i = 0 := by omega
    rw [h1, h2]
  | succ n ih =>
    intro i h hik hpre
    by_cases hik' : i = k
    · subst hik'
      rw [retryRec_step, if_neg (by omega), hk]
      have h1 : i + 1 - i = 1 := by omega
      have h2 : i - i = 0 := by omega
      rw [h1, h2]
    · have hlt : i < k := by omega
      rw [retryRec_step, if_neg (by omega), hpre i (by omega) hlt]
      rw [ih (i + 1) (by omega) (by omega) (fun j hj1 hj2 => hpre j (by omega) hj2)]
      simp
      omega

/-- Claim C1 is a code bug, witnessed here by evaluating the embedded code at
the failing input.  First conjunct: processing a rename pair
`From(s/a); To(s/b)` through `EventHandler::handle_event` performs no
filesystem operation, emits no log line, and leaves the store untouched —
the pairing never completes because `EventHandler::rename`
(src/event_handler.rs:63) passes a fresh `&mut None` pending slot on every
call.  Second and third conjuncts: even threading the slot by hand through
`FileOperationsManager::rename`, the "from" leg records the old destination
`t/a`, and the "to" leg renames `t/a` to `t/b` but then pops the store at the
old *destination* key `t/a` (src/file_operations.rs:236) — so the old source
entry `s/a` survives with its fingerprint and the new entry `s/b` is
synthesized with `hash = none` instead of inheriting the fingerprint. -/
theorem c1_rename_pairing_broken :
    handleEvents envRename storeA [(3, fromEvA), (7, toEvB)] =
      some ⟨storeA, [], []⟩ ∧
    renameOne envRename 3 storeA fromEvA.kind none ["s", "a"] =
      some ⟨storeA, some ["t", "a"], [], [], false⟩ ∧
    renameOne envRename 7 storeA toEvB.kind (some ["t", "a"]) ["s", "b"] =
      some ⟨⟨32768, [(["s", "b"], ⟨PathType.File, none, 7⟩), (["s", "a"], metaA)]⟩,
            none, [FsOp.renameFs ["t", "a"] ["t", "b"]],
            [LogLine.actionDone "renamed" "file" ["b"]], false⟩ :=
  ⟨by decide, by decide, by decide⟩

/-- Claim C5: an excluded directory excludes itself and everything beneath it
(component-prefix match), and each of the four handlers drops such a path
before any filesystem operation, log line, or store change. -/
theorem c5_exclusion_prefix_drops_path (env : Env) (now : Nat)
    (store : LruCache) (kind : EventKind) (slot : Option SyncPath)
    (d p : SyncPath) (hd : d ∈ env.excludedPaths)
    (hpre : d.isPrefixOf (pathToVerbatim p) = true) :
    copyOne env now store p = some ⟨store, [], []⟩ ∧
    removeOne env store p = some (⟨store, [], []⟩, false) ∧
    renameOne env now store kind slot p = some ⟨store, slot, [], [], false⟩ ∧
    createOne env now store p = some ⟨store, [], []⟩ := by
  have hne : env.excludedPaths.isEmpty = false := by
    cases he : env.excludedPaths with
    | nil => rw [he] at hd; cases hd
    | cons a l => simp [he]
  have hany : env.excludedPaths.any
      (fun excludedPath => excludedPath.isPrefixOf (pathToVerbatim p)) = true :=
    List.any_eq_true.mpr ⟨d, hd, hpre⟩
  have hexc : isInExcludedPaths env (pathToVerbatim p) = true := by
    unfold isInExcludedPaths
    rw [hne, hany]
    simp
  refine ⟨?_, ?_, ?_, ?_⟩
  · unfold copyOne; rw [hexc]; simp
  · unfold removeOne; rw [hexc]; simp
  · unfold renameOne; rw [hexc]; simp
  · unfold createOne; rw [hexc]; simp

/-- Witness for C5 at a concrete input: `s/.git` is excluded, and the
notification path `s/.git/sub/file.txt` is dropped by all four handlers. -/
theorem c5_witness :
    copyOne envExcl 0 storeA ["s", ".git", "sub", "file.txt"] =
      some ⟨storeA, [], []⟩ ∧
    removeOne envExcl storeA ["s", ".git", "sub", "file.txt"] =
      some (⟨storeA, [], []⟩, false) ∧
    renameOne envExcl 0 storeA
        (EventKind.modifyEv (ModifyKind.name RenameMode.toSide)) none
        ["s", ".git", "sub", "file.txt"] = some ⟨storeA, none, [], [], false⟩ ∧
    createOne envExcl 0 storeA ["s", ".git", "sub", "file.txt"] =
      some ⟨storeA, [], []⟩ :=
  c5_exclusion_prefix_drops_path envExcl 0 storeA
    (EventKind.modifyEv (ModifyKind.name RenameMode.toSide)) none
    ["s", ".git"] ["s", ".git", "sub", "file.txt"] (by decide) (by decide)

/-- Counterexample to C4 as stated: a rename-to notification for `s/c` with
no pending rename-from produces no filesystem mutation and leaves the store
unchanged, but the emitted log list is empty — no diagnostic is logged
(src/file_operations.rs:216-249 has no `else` branch for the empty slot). -/
theorem c4_counterexample :
    renameOne envPlain 5 storeA
      (EventKind.modifyEv (ModifyKind.name RenameMode.toSide)) none ["s", "c"] =
      some ⟨storeA, none, [], [], false⟩ := by decide

/-- Claim C4 (amended): a Modify/Name(To) notification arriving with no
pending rename-from performs no filesystem mutation and leaves the store
unchanged, silently — no diagnostic is logged. -/
theorem c4_unpaired_rename_to_is_silent_noop (env : Env) (now : Nat)
    (store : LruCache) (srcPath pathStr destPath dirs : SyncPath)
    (hexc : isInExcludedPaths env (pathToVerbatim srcPath) = false)
    (hstrip : stripDir env.args.source_dir (pathToVerbatim srcPath) = some pathStr)
    (htmp : (env.args.no_temporary_editor_files && pathStrEndsWithTilde pathStr) = false)
    (hdd : getDestinationPathAndDirs env.args pathStr = some (destPath, dirs)) :
    renameOne env now store (EventKind.modifyEv (ModifyKind.name RenameMode.toSide))
      none srcPath = some ⟨store, none, [], [], false⟩ := by
  unfold renameOne
  rw [hexc, hstrip]
  simp only [Bool.false_eq_true, if_false]
  rw [htmp, hdd]
  simp

/-- Witness for C4 (amended) at a concrete input. -/
theorem c4_witness :
    renameOne envPlain 9 storeCopyId
      (EventKind.modifyEv (ModifyKind.name RenameMode.toSide)) none ["s", "d"] =
      some ⟨storeCopyId, none, [], [], false⟩ :=
  c4_unpaired_rename_to_is_silent_noop envPlain 9 storeCopyId ["s", "d"] ["d"]
    ["t", "d"] ["t"] (by decide) (by decide) (by decide) (by decide)

/-- Counterexample to C3 as stated: with retry count 2 and every attempt
failing with the sharing-violation code 32, the reader performs 3 read
attempts (not at most 2) and sleeps 3 times (including after the final
attempt, not only between attempts). -/
theorem c3_attempt_count_counterexample :
    retryReadFile (fun _ => ReadResult.errCode 32) 2 5 = (none, 3, 3) := by
  unfold retryReadFile
  have h := retryRec_all32 2 5 3 0 (by omega)
  rw [h]

/-- Claim C3 (amended): the retrying reader (1) performs at most
`retry_count + 1` read attempts (one initial attempt plus up to `retry_count`
retries); (2,3) on an I/O error other than OS code 32 — reached at any
attempt `k ≤ retry_count`, with every earlier attempt a sharing violation —
it returns `none` immediately: the failing attempt is the last one (`k + 1`
reads in total) and it is not followed by a sleep (`k` sleeps, one per
sharing violation only); this covers an error with a non-32 OS code and an
error with no OS code alike, at the first attempt (`k = 0`) or after any
number of retries; (4) when every attempt fails with code 32 it returns
`none` after exactly `retry_count + 1` attempts, sleeping the same fixed
delay after each failed attempt (including the last); (5) if attempt
`k ≤ retry_count` succeeds after `k` sharing-violation failures it returns
the bytes after `k + 1` attempts and `k` sleeps. -/
theorem c3_retry_read_amended :
    (∀ readAt rc w, (retryReadFile readAt rc w).2.1 ≤ rc + 1) ∧
    (∀ readAt rc w k code, readAt k = ReadResult.errCode code → code ≠ 32 →
      k ≤ rc → (∀ j, j < k → readAt j = ReadResult.errCode 32) →
      retryReadFile readAt rc w = (none, k + 1, k)) ∧
    (∀ readAt rc w k, readAt k = ReadResult.errNoCode →
      k ≤ rc → (∀ j, j < k → readAt j = ReadResult.errCode 32) →
      retryReadFile readAt rc w = (none, k + 1, k)) ∧
    (∀ rc w, retryReadFile (fun _ => ReadResult.errCode 32) rc w =
      (none, rc + 1, rc + 1)) ∧
    (∀ readAt rc w k c, readAt k = ReadResult.ok c → k ≤ rc →
      (∀ j, j < k → readAt j = ReadResult.errCode 32) →
      retryReadFile readAt rc w = (some c, k + 1, k)) := by
  refine ⟨?_, ?_, ?_, ?_, ?_⟩
  · intro readAt rc w
    have h := retryRec_reads_le readAt rc w (rc + 1) 0 (by omega)
    unfold retryReadFile
    omega
  · intro readAt rc w k code hcode h32 hkrc hpre
    unfold retryReadFile
    have h := retryRec_errCode_stop readAt rc w k code hcode h32 hkrc (k + 1) 0
      (by omega) (by omega) (fun j hj1 hj2 => hpre j hj2)
    rw [h]
    simp
  · intro readAt rc w k hcode hkrc hpre
    unfold retryReadFile
    have h := retryRec_errNoCode_stop readAt rc w k hcode hkrc (k + 1) 0
      (by omega) (by omega) (fun j hj1 hj2 => hpre j hj2)
    rw [h]
    simp
  · intro rc w
    unfold retryReadFile
    have h := retryRec_all32 rc w (rc + 1) 0 (by omega)
    rw [h]
    simp
  · intro readAt rc w k c hk hkrc hpre
    unfold retryReadFile
    have h := retryRec_success readAt rc w k c hk hkrc (k + 1) 0 (by omega)
      (by omega) (fun j hj1 hj2 => hpre j hj2)
    rw [h]
    simp

theorem copy_skip {env : Env} {now : Nat} {store : LruCache}
    {srcPath pathStr destPath dirs : SyncPath} {pm : PathMetadata}
    {content : List Nat}
    (hexc : isInExcludedPaths env (pathToVerbatim srcPath) = false)
    (hstrip : stripDir env.args.source_dir (pathToVerbatim srcPath) = some pathStr)
    (htmp : (env.args.no_temporary_editor_files && pathStrEndsWithTilde pathStr) = false)
    (hdd : getDestinationPathAndDirs env.args pathStr = some (destPath, dirs))
    (hm : store.peek (pathToVerbatim srcPath) = some pm)
    (hFile : pm.path_type = PathType.File)
    (hread : env.fs.readFile (pathToVerbatim srcPath) = some content)
    (hid : some (blake3Hash content) = pm.hash) :
    copyOne env now store srcPath =
      some ⟨(store.get (pathToVerbatim srcPath)).2, [],
        if now - pm.last_change > 1000 then [LogLine.identicalNotCopied pathStr]
        else []⟩ := by
  unfold copyOne
  rw [hexc]
  simp only [Bool.false_eq_true, if_false]
  rw [hstrip]
  simp only []
  rw [htmp]
  simp only [Bool.false_eq_true, if_false]
  rw [hdd]
  simp only []
  unfold LruCache.get
  rw [hm]
  simp only []
  rw [hFile]
  simp only []
  rw [hread]
  simp only [Option.map_some']
  rw [← hid]
  by_cases ht : now - pm.last_change > 1000 <;> simp [ht]

theorem copy_differs {env : Env} {now : Nat} {store : LruCache}
    {srcPath pathStr destPath dirs : SyncPath} {pm : PathMetadata}
    {content : List Nat}
    (hexc : isInExcludedPaths env (pathToVerbatim srcPath) = false)
    (hstrip : stripDir env.args.source_dir (pathToVerbatim srcPath) = some pathStr)
    (htmp : (env.args.no_temporary_editor_files && pathStrEndsWithTilde pathStr) = false)
    (hdd : getDestinationPathAndDirs env.args pathStr = some (destPath, dirs))
    (hm : store.peek (pathToVerbatim srcPath) = some pm)
    (hFile : pm.path_type = PathType.File)
    (hread : env.fs.readFile (pathToVerbatim srcPath) = some content)
    (hne : some (blake3Hash content) ≠ pm.hash) :
    copyOne env now store srcPath =
      if env.fs.copyFileOk (pathToVerbatim srcPath) destPath then
        some ⟨writeInFileStore now
                (createDependsDirs env now ((store.get (pathToVerbatim srcPath)).2)
                  dirs pathStr).store
                (pathToVerbatim srcPath) PathType.File (some (blake3Hash content)),
              (createDependsDirs env now ((store.get (pathToVerbatim srcPath)).2)
                dirs pathStr).ops ++
                [FsOp.copyFile (pathToVerbatim srcPath) destPath],
              (createDependsDirs env now ((store.get (pathToVerbatim srcPath)).2)
                dirs pathStr).logs ++ [LogLine.fileCopied pathStr]⟩
      else
        some ⟨(createDependsDirs env now ((store.get (pathToVerbatim srcPath)).2)
                dirs pathStr).store,
              (createDependsDirs env now ((store.get (pathToVerbatim srcPath)).2)
                dirs pathStr).ops ++
                [FsOp.copyFile (pathToVerbatim srcPath) destPath],
              (createDependsDirs env now ((store.get (pathToVerbatim srcPath)).2)
                dirs pathStr).logs ++ [LogLine.copyFailed pathStr]⟩ := by
  unfold copyOne
  rw [hexc]
  simp only [Bool.false_eq_true, if_false]
  rw [hstrip]
  simp only []
  rw [htmp]
  simp only [Bool.false_eq_true, if_false]
  rw [hdd]
  simp only []
  unfold LruCache.get
  rw [hm]
  simp only []
  rw [hFile]
  simp only []
  rw [hread]
  simp only [Option.map_some']
  have hd : decide (some (blake3Hash content) = pm.hash) = false := by
    simp [hne]
  rw [hd]
  simp only [Bool.false_and, Bool.false_eq_true, if_false]

theorem writeInFileStore_after_depends_peek {env : Env} {now : Nat}
    {store : LruCache} {vp dirs ps : SyncPath} {pm : PathMetadata}
    {h : Option Blake3Hash}
    (hcap : 1 ≤ store.cap) (hm : store.peek vp = some pm)
    (hFile : pm.path_type = PathType.File) :
    (writeInFileStore now
        (createDependsDirs env now ((store.get vp).2) dirs ps).store
        vp PathType.File h).peek vp = some ⟨PathType.File, h, now⟩ := by
  cases hdp : (createDependsDirs env now ((store.get vp).2) dirs ps).store.peek vp with
  | none =>
    have hc : 1 ≤ (createDependsDirs env now ((store.get vp).2) dirs ps).store.cap := by
      rw [cap_createDependsDirs, cap_get_snd]
      exact hcap
    rw [peek_writeInFileStore_self_none hc hdp]
  | some m' =>
    have hk := createDependsDirs_peek_kind hm m' hdp
    rw [peek_writeInFileStore_self_some hdp, hk, hFile]
    simp

/-- Witness for C3 (amended) at concrete oracles: one sharing violation
followed by a successful read yields the bytes after two attempts and one
sleep (conjunct 5), and one sharing violation followed by a non-32 error
(code 2) stops immediately — two attempts, one sleep, no retry of the non-32
error (conjunct 2 at `k = 1`). -/
theorem c3_witness :
    retryReadFile
      (fun j => if j < 1 then ReadResult.errCode 32 else ReadResult.ok [7]) 2 9 =
      (some [7], 2, 1) ∧
    retryReadFile
      (fun j => if j < 1 then ReadResult.errCode 32 else ReadResult.errCode 2) 5 9 =
      (none, 2, 1) := by
  constructor
  · have h := c3_retry_read_amended.2.2.2.2
      (fun j => if j < 1 then ReadResult.errCode 32 else ReadResult.ok [7]) 2 9 1 [7]
      (by decide) (by omega) (by decide)
    simpa using h
  · have h := c3_retry_read_amended.2.1
      (fun j => if j < 1 then ReadResult.errCode 32 else ReadResult.errCode 2) 5 9 1 2
      (by decide) (by decide) (by omega) (by decide)
    simpa using h

/-- Counterexample to C2 as stated: the store entry for `s/a` carries exactly
the fingerprint of the current bytes `[9]` (an identical file), yet the copy
handler invoked 500 ms after the entry's `last_change` emits no log line at
all — the "not copied : content is identical" line is only printed when more
than 1000 ms have elapsed (src/file_operations.rs:84-86), so "the line is
logged whenever the hashes are equal" is false; in particular a second
invocation immediately after a copy logs nothing. -/
theorem c2_counterexample :
    envCopyId.fs.readFile ["s", "a"] = some [9] ∧
    storeCopyId.peek ["s", "a"] =
      some ⟨PathType.File, some (blake3Hash [9]), 100⟩ ∧
    copyOne envCopyId 600 storeCopyId ["s", "a"] = some ⟨storeCopyId, [], []⟩ :=
  ⟨by decide, by decide, by decide⟩

/-- Claim C2 (amended): for a Modify notification on a File path whose store
entry has a fingerprint, if the hash of the current bytes equals the stored
fingerprint then no copy is performed, and the "not copied : content is
identical" line is logged exactly when more than one second has elapsed since
the entry's `last_change` (otherwise the skip is silent); if the hashes
differ, the copy is performed, the "identical" line is not logged, and on
copy success the stored fingerprint and timestamp are updated — after which a
second invocation within one second, without an intervening content change,
performs no filesystem operation and logs nothing. -/
theorem c2_copy_deduplication_amended (env : Env) (now : Nat) (store : LruCache)
    (srcPath pathStr destPath dirs : SyncPath) (pm : PathMetadata)
    (content : List Nat)
    (hexc : isInExcludedPaths env (pathToVerbatim srcPath) = false)
    (hstrip : stripDir env.args.source_dir (pathToVerbatim srcPath) = some pathStr)
    (htmp : (env.args.no_temporary_editor_files && pathStrEndsWithTilde pathStr) = false)
    (hdd : getDestinationPathAndDirs env.args pathStr = some (destPath, dirs))
    (hcap : 1 ≤ store.cap)
    (hm : store.peek (pathToVerbatim srcPath) = some pm)
    (hFile : pm.path_type = PathType.File)
    (hread : env.fs.readFile (pathToVerbatim srcPath) = some content) :
    (some (blake3Hash content) = pm.hash → now - pm.last_change > 1000 →
      copyOne env now store srcPath =
        some ⟨(store.get (pathToVerbatim srcPath)).2, [],
              [LogLine.identicalNotCopied pathStr]⟩) ∧
    (some (blake3Hash content) = pm.hash → ¬ now - pm.last_change > 1000 →
      copyOne env now store srcPath =
        some ⟨(store.get (pathToVerbatim srcPath)).2, [], []⟩) ∧
    (some (blake3Hash content) ≠ pm.hash →
      env.fs.copyFileOk (pathToVerbatim srcPath) destPath = true →
      ∃ out, copyOne env now store srcPath = some out ∧
        FsOp.copyFile (pathToVerbatim srcPath) destPath ∈ out.ops ∧
        LogLine.identicalNotCopied pathStr ∉ out.logs ∧
        out.store.peek (pathToVerbatim srcPath) =
          some ⟨PathType.File, some (blake3Hash content), now⟩ ∧
        ∀ now2, ¬ now2 - now > 1000 →
          copyOne env now2 out.store srcPath =
            some ⟨(out.store.get (pathToVerbatim srcPath)).2, [], []⟩) := by
  refine ⟨?_, ?_, ?_⟩
  · intro hid ht
    rw [copy_skip hexc hstrip htmp hdd hm hFile hread hid, if_pos ht]
  · intro hid ht
    rw [copy_skip hexc hstrip htmp hdd hm hFile hread hid, if_neg ht]
  · intro hne hcopy
    refine ⟨⟨writeInFileStore now
        (createDependsDirs env now ((store.get (pathToVerbatim srcPath)).2)
          dirs pathStr).store
        (pathToVerbatim srcPath) PathType.File (some (blake3Hash content)),
      (createDependsDirs env now ((store.get (pathToVerbatim srcPath)).2)
        dirs pathStr).ops ++ [FsOp.copyFile (pathToVerbatim srcPath) destPath],
      (createDependsDirs env now ((store.get (pathToVerbatim srcPath)).2)
        dirs pathStr).logs ++ [LogLine.fileCopied pathStr]⟩, ?_, ?_, ?_, ?_, ?_⟩
    · rw [copy_differs hexc hstrip htmp hdd hm hFile hread hne, if_pos hcopy]
    · simp
    · rcases createDependsDirs_logs env now ((store.get (pathToVerbatim srcPath)).2)
        dirs pathStr with hl | hl | hl <;> simp [hl]
    · exact writeInFileStore_after_depends_peek hcap hm hFile
    · intro now2 ht2
      have hm2 := @writeInFileStore_after_depends_peek env now store
        (pathToVerbatim srcPath) dirs pathStr pm (some (blake3Hash content))
        hcap hm hFile
      rw [copy_skip hexc hstrip htmp hdd hm2 rfl hread rfl]
      simp [ht2]

/-- Witness for C2 (amended): at the concrete identical-content scenario,
invoked more than one second after `last_change`, the handler skips the copy
and logs the "identical" line. -/
theorem c2_witness :
    copyOne envCopyId 2000 storeCopyId ["s", "a"] =
      some ⟨(storeCopyId.get ["s", "a"]).2, [],
            [LogLine.identicalNotCopied ["a"]]⟩ :=
  (c2_copy_deduplication_amended envCopyId 2000 storeCopyId ["s", "a"] ["a"]
    ["t", "a"] ["t"] ⟨PathType.File, some [9], 100⟩ [9]
    (by decide) (by decide) (by decide) (by decide) (by decide) (by decide)
    (by decide) (by decide)).1 (by decide) (by decide)

/-- Counterexample to C6 as stated: the store holds an entry for `s/a`, but
because the mirrored destination `t/a` does not exist the remove handler
returns early (src/file_operations.rs:163-164) without deleting the store
entry — "removing a path that has a store entry deletes that entry" is false
when the destination is absent. -/
theorem c6_counterexample :
    storeA.peek ["s", "a"] = some metaA ∧
    removeOne envPlain storeA ["s", "a"] = some (⟨storeA, [], []⟩, true) :=
  ⟨by decide, by decide⟩

/-- Claim C6 (amended): (1) when the mirrored destination does not exist the
remove handler is a silent no-op — no filesystem operation, no log line, and
the store (including any entry for the path) is left unchanged; (2,3) when
the destination exists as a file (resp. directory) the removal is attempted
and the store entry for the path is deleted whether or not the removal call
succeeds; (4) removal errors with OS code 2 or 3 ("path does not exist") are
muted; (5,6) every other removal error — a different code or no code at
all — is logged. -/
theorem c6_remove_cleanup_amended (env : Env) (store : LruCache)
    (srcPath pathStr : SyncPath)
    (hexc : isInExcludedPaths env (pathToVerbatim srcPath) = false)
    (hstrip : stripDir env.args.source_dir (pathToVerbatim srcPath) = some pathStr)
    (htmp : (env.args.no_temporary_editor_files && pathStrEndsWithTilde pathStr) = false) :
    (env.fs.pathExists (getDestinationPath env.args pathStr) = false →
      removeOne env store srcPath = some (⟨store, [], []⟩, true)) ∧
    (env.fs.pathExists (getDestinationPath env.args pathStr) = true →
      env.fs.isFile (getDestinationPath env.args pathStr) = true →
      ∃ logs, removeOne env store srcPath =
        some (⟨(store.pop (pathToVerbatim srcPath)).2,
               [FsOp.removeFile (getDestinationPath env.args pathStr)], logs⟩,
              false) ∧
        ((store.pop (pathToVerbatim srcPath)).2).peek (pathToVerbatim srcPath) =
          none) ∧
    (env.fs.pathExists (getDestinationPath env.args pathStr) = true →
      env.fs.isFile (getDestinationPath env.args pathStr) = false →
      env.fs.isDir (getDestinationPath env.args pathStr) = true →
      ∃ logs, removeOne env store srcPath =
        some (⟨(store.pop (pathToVerbatim srcPath)).2,
               [FsOp.removeDirAll (getDestinationPath env.args pathStr)], logs⟩,
              false) ∧
        ((store.pop (pathToVerbatim srcPath)).2).peek (pathToVerbatim srcPath) =
          none) ∧
    (∀ e ps t, e.rawOsError = some 2 ∨ e.rawOsError = some 3 →
      handleRemoveErr e ps t = []) ∧
    (∀ e ps t code, e.rawOsError = some code → code ≠ 2 → code ≠ 3 →
      handleRemoveErr e ps t ≠ []) ∧
    (∀ e ps t, e.rawOsError = none → handleRemoveErr e ps t ≠ []) := by
  refine ⟨?_, ?_, ?_, ?_, ?_, ?_⟩
  · intro hdest
    unfold removeOne
    rw [hexc]
    simp only [Bool.false_eq_true, if_false]
    rw [hstrip]
    simp only []
    rw [htmp]
    simp only [Bool.false_eq_true, if_false]
    rw [hdest]
    simp
  · intro hdest hfile
    unfold removeOne
    rw [hexc]
    simp only [Bool.false_eq_true, if_false]
    rw [hstrip]
    simp only []
    rw [htmp]
    simp only [Bool.false_eq_true, if_false]
    rw [hdest, hfile]
    simp only [Bool.not_true, Bool.false_eq_true, if_false, if_pos]
    cases he : env.fs.removeFileErr (getDestinationPath env.args pathStr) with
    | some e =>
      exact ⟨handleRemoveErr e pathStr PathType.File, by simp,
             peek_pop_snd_self store (pathToVerbatim srcPath)⟩
    | none =>
      exact ⟨[LogLine.actionDone "deleted" "file" pathStr], by simp,
             peek_pop_snd_self store (pathToVerbatim srcPath)⟩
  · intro hdest hfile hdir
    unfold removeOne
    rw [hexc]
    simp only [Bool.false_eq_true, if_false]
    rw [hstrip]
    simp only []
    rw [htmp]
    simp only [Bool.false_eq_true, if_false]
    rw [hdest, hfile, hdir]
    simp only [Bool.not_true, Bool.false_eq_true, if_false, if_pos]
    cases he : env.fs.removeDirAllErr (getDestinationPath env.args pathStr) with
    | some e =>
      exact ⟨handleRemoveErr e pathStr PathType.Dir, by simp,
             peek_pop_snd_self store (pathToVerbatim srcPath)⟩
    | none =>
      exact ⟨[LogLine.actionDone "deleted" "dir" pathStr], by simp,
             peek_pop_snd_self store (pathToVerbatim srcPath)⟩
  · intro e ps t hcode
    unfold handleRemoveErr
    rcases hcode with hc | hc <;> rw [hc] <;> simp
  · intro e ps t code hcode h2 h3
    unfold handleRemoveErr
    rw [hcode]
    simp [h2, h3]
  · intro e ps t hcode
    unfold handleRemoveErr
    rw [hcode]
    simp

/-- Witness for C6 (amended): concrete removal of `s/a` whose destination
`t/a` exists as a file deletes the store entry. -/
theorem c6_witness :
    ∃ logs, removeOne envRemove storeA ["s", "a"] =
      some (⟨(storeA.pop ["s", "a"]).2, [FsOp.removeFile ["t", "a"]], logs⟩,
            false) ∧
      ((storeA.pop ["s", "a"]).2).peek ["s", "a"] = none :=
  (c6_remove_cleanup_amended envRemove storeA ["s", "a"] ["a"]
    (by decide) (by decide) (by decide)).2.1 (by decide) (by decide)

/-- Claim C8: a `Dir` store entry never carries a fingerprint.  The invariant
holds for the initial empty store (`FileStore::new`) and is preserved by the
copy, remove, rename and create handlers — including the rename path that
re-keys or synthesizes an entry — for any event, under the filesystem
coherence assumption that a path reported as a file exists. -/
theorem c8_dir_entries_never_carry_fingerprint (env : Env)
    (hcoh : ∀ q, env.fs.isFile q = true → env.fs.pathExists q = true) :
    DirNoHash FileStore.new.content ∧
    (∀ now store paths out, DirNoHash store →
      copyPaths env now store paths = some out → DirNoHash out.store) ∧
    (∀ store paths out, DirNoHash store →
      removePaths env store paths = some out → DirNoHash out.store) ∧
    (∀ now kind store slot paths res, DirNoHash store →
      renamePaths env now kind store slot paths = some res → DirNoHash res.1) ∧
    (∀ now store paths out, DirNoHash store →
      createPaths env now store paths = some out → DirNoHash out.store) := by
  refine ⟨?_, ?_, ?_, ?_, ?_⟩
  · intro e he
    cases he
  · intro now store paths out hs h
    exact dirNoHash_copyPaths hcoh hs h
  · intro store paths out hs h
    exact dirNoHash_removePaths hs h
  · intro now kind store slot paths res hs h
    exact dirNoHash_renamePaths hs h
  · intro now store paths out hs h
    exact dirNoHash_createPaths hs h

/-- Witness for C8 at a concrete environment and store: the invariant holds
for the fresh store and is carried through a concrete copy-handler run. -/
theorem c8_witness :
    DirNoHash FileStore.new.content ∧
    DirNoHash (⟨32768, [(["s", "a"], metaA)]⟩ : LruCache) := by
  have hcoh : ∀ q, envPlain.fs.isFile q = true → envPlain.fs.pathExists q = true := by
    intro q hq
    simp [envPlain, fsDefault] at hq
  have hmain := c8_dir_entries_never_carry_fingerprint envPlain hcoh
  refine ⟨hmain.1, ?_⟩
  have h := hmain.2.1 5 storeA [["s", "a"]]
    ⟨storeA, [FsOp.createDirAll ["t"], FsOp.copyFile ["s", "a"] ["t", "a"]],
     [LogLine.createDirsFailed ["a"], LogLine.copyFailed ["a"]]⟩
    (by decide) (by decide)
  exact h

/-- Counterexample to C7 as stated: in a store holding `a` (least recently
used) and then `b`, the lookup `FileStore::read` of `a` succeeds but performs
no LRU touch — `read` is built on `peek` and returns no updated store, so `a`
stays in last (least-recently-used) position and is still the next entry to
be evicted under capacity pressure, contradicting "every lookup moves the key
to most-recently-used position". -/
theorem c7_counterexample :
    FileStore.read fsStoreAB ["a"] = some metaA ∧
    fsStoreAB.content.entries.getLast? = some (["a"], metaA) :=
  ⟨by decide, by decide⟩

/-- Claim C7 (amended): the Mirror Store is a fixed-capacity cache of
32,768 entries — the capacity is set at construction, never changed by
`create`, and never exceeded by `create`/`update`/`delete` — and a lookup
(`FileStore::read`) returns the stored value via a non-mutating `peek`
without updating the recency order; only `put` (create/update) refreshes
recency. -/
theorem c7_store_capacity_and_peek :
    FileStore.new.content.cap = 32768 ∧
    FileStore.new.content.entries = [] ∧
    (∀ s k v, (FileStore.create s k v).content.cap = s.content.cap ∧
      (FileStore.create s k v).content.entries.length ≤ s.content.cap) ∧
    (∀ s k v, 1 ≤ s.content.cap →
      FileStore.read (FileStore.create s k v) k = some v) ∧
    (∀ s k, FileStore.read s k = s.content.peek k) ∧
    (∀ s k, (FileStore.delete s k).content.entries.length ≤
      s.content.entries.length) := by
  refine ⟨rfl, rfl, ?_, ?_, ?_, ?_⟩
  · intro s k v
    refine ⟨rfl, ?_⟩
    unfold FileStore.create LruCache.put
    simp only [List.length_take]
    exact Nat.min_le_left _ _
  · intro s k v hcap
    unfold FileStore.read FileStore.create
    exact peek_put_self hcap k v
  · intro s k
    rfl
  · intro s k
    unfold FileStore.delete LruCache.pop
    simp only []
    exact List.length_filter_le _ _

/-- Witness for C7 (amended): insert-then-read at a concrete key returns the
inserted value. -/
theorem c7_witness :
    FileStore.read (FileStore.create FileStore.new ["a"] metaA) ["a"] =
      some metaA :=
  c7_store_capacity_and_peek.2.2.2.1 FileStore.new ["a"] metaA (by decide)

/-- Claim C9: a Create notification for a path that already has a store
entry, or whose mirrored destination already exists, performs no filesystem
operation, emits no log line, and leaves that path's store entry (present or
absent) unchanged. -/
theorem c9_create_noop_when_known_or_present (env : Env) (now : Nat)
    (store : LruCache) (srcPath pathStr destPath dirs : SyncPath)
    (hexc : isInExcludedPaths env (pathToVerbatim srcPath) = false)
    (hstrip : stripDir env.args.source_dir (pathToVerbatim srcPath) = some pathStr)
    (htmp : (env.args.no_temporary_editor_files && pathStrEndsWithTilde pathStr) = false)
    (hdd : getDestinationPathAndDirs env.args pathStr = some (destPath, dirs))
    (hcond : (store.peek (pathToVerbatim srcPath)).isSome = true ∨
      env.fs.pathExists destPath = true) :
    ∃ store', createOne env now store srcPath = some ⟨store', [], []⟩ ∧
      store'.peek (pathToVerbatim srcPath) = store.peek (pathToVerbatim srcPath) := by
  unfold createOne
  rw [hexc]
  simp only [Bool.false_eq_true, if_false]
  rw [hstrip]
  simp only []
  rw [htmp]
  simp only [Bool.false_eq_true, if_false]
  rw [hdd]
  simp only []
  cases hp : store.peek (pathToVerbatim srcPath) with
  | some pm =>
    refine ⟨⟨store.cap,
      ((pathToVerbatim srcPath), pm) ::
        LruCache.eraseKey store.entries (pathToVerbatim srcPath)⟩, ?_, ?_⟩
    · unfold LruCache.get
      rw [hp]
    · simp [LruCache.peek, List.find?]
  | none =>
    rcases hcond with hsome | hex
    · rw [hp] at hsome
      simp at hsome
    · refine ⟨store, ?_, hp⟩
      unfold LruCache.get
      rw [hp]
      simp only []
      rw [hex]
      simp

/-- Witness for C9: creating `s/a`, already tracked by the store, is a
no-op. -/
theorem c9_witness :
    ∃ store', createOne envPlain 4 storeA ["s", "a"] = some ⟨store', [], []⟩ ∧
      store'.peek ["s", "a"] = storeA.peek ["s", "a"] :=
  c9_create_noop_when_known_or_present envPlain 4 storeA ["s", "a"] ["a"]
    ["t", "a"] ["t"] (by decide) (by decide) (by decide) (by decide)
    (Or.inl (by decide))

theorem copy_read_failed {env : Env} {now : Nat} {store : LruCache}
    {srcPath pathStr destPath dirs : SyncPath} {pm : PathMetadata}
    (hexc : isInExcludedPaths env (pathToVerbatim srcPath) = false)
    (hstrip : stripDir env.args.source_dir (pathToVerbatim srcPath) = some pathStr)
    (htmp : (env.args.no_temporary_editor_files && pathStrEndsWithTilde pathStr) = false)
    (hdd : getDestinationPathAndDirs env.args pathStr = some (destPath, dirs))
    (hm : store.peek (pathToVerbatim srcPath) = some pm)
    (hFile : pm.path_type = PathType.File)
    (hread : env.fs.readFile (pathToVerbatim srcPath) = none) :
    copyOne env now store srcPath =
      if env.fs.copyFileOk (pathToVerbatim srcPath) destPath then
        some ⟨writeInFileStore now
                (createDependsDirs env now ((store.get (pathToVerbatim srcPath)).2)
                  dirs pathStr).store
                (pathToVerbatim srcPath) PathType.File none,
              (createDependsDirs env now ((store.get (pathToVerbatim srcPath)).2)
                dirs pathStr).ops ++
                [FsOp.copyFile (pathToVerbatim srcPath) destPath],
              (createDependsDirs env now ((store.get (pathToVerbatim srcPath)).2)
                dirs pathStr).logs ++ [LogLine.fileCopied pathStr]⟩
      else
        some ⟨(createDependsDirs env now ((store.get (pathToVerbatim srcPath)).2)
                dirs pathStr).store,
              (createDependsDirs env now ((store.get (pathToVerbatim srcPath)).2)
                dirs pathStr).ops ++
                [FsOp.copyFile (pathToVerbatim srcPath) destPath],
              (createDependsDirs env now ((store.get (pathToVerbatim srcPath)).2)
                dirs pathStr).logs ++ [LogLine.copyFailed pathStr]⟩ := by
  unfold copyOne
  rw [hexc]
  simp only [Bool.false_eq_true, if_false]
  rw [hstrip]
  simp only []
  rw [htmp]
  simp only [Bool.false_eq_true, if_false]
  rw [hdd]
  simp only []
  unfold LruCache.get
  rw [hm]
  simp only []
  rw [hFile]
  simp only []
  rw [hread]
  simp only [Option.map_none']

/-- Claim C10: when the copy handler finds a File store entry but reading the
current bytes fails, it attempts the copy unconditionally; if the copy
succeeds the entry's fingerprint is cleared to `none` with a refreshed
timestamp, and an entry whose fingerprint is `none` can never be skipped as
identical on a later Modify — a successful read always routes to the copy
branch, never to the "identical" skip. -/
theorem c10_read_failure_clears_fingerprint (env : Env) (now : Nat)
    (store : LruCache) (srcPath pathStr destPath dirs : SyncPath)
    (pm : PathMetadata)
    (hexc : isInExcludedPaths env (pathToVerbatim srcPath) = false)
    (hstrip : stripDir env.args.source_dir (pathToVerbatim srcPath) = some pathStr)
    (htmp : (env.args.no_temporary_editor_files && pathStrEndsWithTilde pathStr) = false)
    (hdd : getDestinationPathAndDirs env.args pathStr = some (destPath, dirs))
    (hcap : 1 ≤ store.cap)
    (hm : store.peek (pathToVerbatim srcPath) = some pm)
    (hFile : pm.path_type = PathType.File) :
    (env.fs.readFile (pathToVerbatim srcPath) = none →
      ∃ out, copyOne env now store srcPath = some out ∧
        FsOp.copyFile (pathToVerbatim srcPath) destPath ∈ out.ops ∧
        (env.fs.copyFileOk (pathToVerbatim srcPath) destPath = true →
          out.store.peek (pathToVerbatim srcPath) =
            some ⟨PathType.File, none, now⟩)) ∧
    (pm.hash = none →
      ∀ content, env.fs.readFile (pathToVerbatim srcPath) = some content →
        ∃ out, copyOne env now store srcPath = some out ∧
          FsOp.copyFile (pathToVerbatim srcPath) destPath ∈ out.ops ∧
          LogLine.identicalNotCopied pathStr ∉ out.logs) := by
  refine ⟨?_, ?_⟩
  · intro hread
    rw [copy_read_failed hexc hstrip htmp hdd hm hFile hread]
    by_cases hc : env.fs.copyFileOk (pathToVerbatim srcPath) destPath = true
    · rw [if_pos hc]
      refine ⟨_, rfl, by simp, ?_⟩
      intro _
      exact @writeInFileStore_after_depends_peek env now store
        (pathToVerbatim srcPath) dirs pathStr pm none hcap hm hFile
    · rw [if_neg hc]
      refine ⟨_, rfl, by simp, ?_⟩
      intro hc'
      exact absurd hc' hc
  · intro hnone content hread
    have hne : some (blake3Hash content) ≠ pm.hash := by
      rw [hnone]
      simp
    rw [copy_differs hexc hstrip htmp hdd hm hFile hread hne]
    by_cases hc : env.fs.copyFileOk (pathToVerbatim srcPath) destPath = true
    · rw [if_pos hc]
      refine ⟨_, rfl, by simp, ?_⟩
      rcases createDependsDirs_logs env now ((store.get (pathToVerbatim srcPath)).2)
        dirs pathStr with hl | hl | hl <;> simp [hl]
    · rw [if_neg hc]
      refine ⟨_, rfl, by simp, ?_⟩
      rcases createDependsDirs_logs env now ((store.get (pathToVerbatim srcPath)).2)
        dirs pathStr with hl | hl | hl <;> simp [hl]

/-- Witness for C10: concrete read failure on `s/a` followed by a successful
copy clears the stored fingerprint. -/
theorem c10_witness :
    ∃ out, copyOne envReadFail 11 storeA ["s", "a"] = some out ∧
      FsOp.copyFile ["s", "a"] ["t", "a"] ∈ out.ops ∧
      (envReadFail.fs.copyFileOk ["s", "a"] ["t", "a"] = true →
        out.store.peek ["s", "a"] = some ⟨PathType.File, none, 11⟩) :=
  (c10_read_failure_clears_fingerprint envReadFail 11 storeA ["s", "a"] ["a"]
    ["t", "a"] ["t"] metaA (by decide) (by decide) (by decide) (by decide)
    (by decide) (by decide) (by decide)).1 (by decide)

end OXsync
